import Mathlib

/-!
Verification of the aSyphon PipeWire routing core against its specification.

Python strings are modelled as lists of Unicode code points (`PyStr := List Nat`);
Python casing, stripping and digit predicates are modelled on the ASCII range,
which covers the whole vocabulary handled by the source.  Python dictionaries
(insertion-ordered) are modelled as association lists with in-place update.
Fallible Python code is modelled with `Except`; the external `pw-dump`,
`pw-link` and pulse collaborators are modelled as explicit oracle inputs,
and functions that may or may not invoke an external command additionally
return a `Bool` recording whether the command was invoked.
-/

namespace ASyphon

/-- Model of a Python `str`: the list of its code points. -/
abbrev PyStr : Type := List Nat

/-- Code points of a Lean string literal, used to write `PyStr` constants. -/
def pys (s : String) : PyStr := s.data.map Char.toNat

/-- ASCII lower-casing of one code point (model of Python `str.lower` per character). -/
def lowChar (c : Nat) : Nat := if 65 ≤ c ∧ c ≤ 90 then c + 32 else c

/-- ASCII upper-casing of one code point (model of Python `str.upper` per character). -/
def upChar (c : Nat) : Nat := if 97 ≤ c ∧ c ≤ 122 then c - 32 else c

/-- Model of Python `str.lower`. -/
def pyLower (s : PyStr) : PyStr := s.map lowChar

/-- Model of Python `str.upper`. -/
def pyUpper (s : PyStr) : PyStr := s.map upChar

/-- Python default-whitespace test (ASCII whitespace code points). -/
def isSpaceChar (c : Nat) : Bool := c == 32 || c == 9 || c == 10 || c == 13 || c == 11 || c == 12

/-- ASCII digit test (model of Python `str.isdigit` per character). -/
def isDigitChar (c : Nat) : Bool := 48 ≤ c && c ≤ 57

/-- Model of Python `str.strip()` with no argument. -/
def pyStrip (s : PyStr) : PyStr :=
  ((s.dropWhile isSpaceChar).reverse.dropWhile isSpaceChar).reverse

/-- Decimal value of a digit string, as computed by Python `int(...)` on a
digit-only string (leading zeros allowed). -/
def digitsToNat (s : PyStr) : Nat := s.foldl (fun acc c => acc * 10 + (c - 48)) 0

/-- Little-endian base-10 digits, computed with explicit fuel so that the
kernel can evaluate it (first argument is the fuel). -/
def natDigitsAux : Nat → Nat → List Nat
  | 0, _ => []
  | fuel + 1, n => if n = 0 then [] else n % 10 :: natDigitsAux fuel (n / 10)

/-- Little-endian base-10 digits of `n`. -/
def natDigitsLE (n : Nat) : List Nat := natDigitsAux n n

/-- Decimal rendering of a natural number (model of Python `str(n)` / f-string
interpolation of a nonnegative `int`). -/
def natRepr (n : Nat) : PyStr :=
  if n = 0 then [48] else (natDigitsLE n).reverse.map (fun d => d + 48)

/-- First-match association-list lookup (model of Python `dict` lookup; the
builders below keep keys unique, mirroring dict semantics). -/
def alookup {β : Type} (m : List (PyStr × β)) (k : PyStr) : Option β :=
  match m with
  | [] => none
  | (k', v) :: t => if k' = k then some v else alookup t k

/-- In-place insert-or-update (model of Python `d[k] = v`: an existing key keeps
its position and gets the new value, a new key is appended). -/
def upsert {β : Type} (m : List (PyStr × β)) (k : PyStr) (v : β) : List (PyStr × β) :=
  match m with
  | [] => [(k, v)]
  | (k', v') :: t => if k' = k then (k, v) :: t else (k', v') :: upsert t k v

/-- The synonym table of `normalize_channel` (src/pw_channels.py lines 24-34;
the same table appears in src/backend.py `_normalize_channel`). -/
def channelMapping : List (PyStr × PyStr) :=
  [ (pys "fl", pys "FL"), (pys "front-left", pys "FL")
  , (pys "fr", pys "FR"), (pys "front-right", pys "FR")
  , (pys "fc", pys "FC"), (pys "front-center", pys "FC")
  , (pys "lfe", pys "LFE"), (pys "low-frequency", pys "LFE")
  , (pys "rl", pys "RL"), (pys "rear-left", pys "RL")
  , (pys "rr", pys "RR"), (pys "rear-right", pys "RR")
  , (pys "sl", pys "SL"), (pys "side-left", pys "SL")
  , (pys "sr", pys "SR"), (pys "side-right", pys "SR")
  , (pys "mono", pys "MONO") ]

/-- Translation of `normalize_channel` (src/pw_channels.py lines 19-43; the
code in src/backend.py lines 87-119 is identical up to table layout).
`v or ""` on a `str` only rewrites the empty string to itself, so it is a
no-op under this model and is omitted. -/
def normalize_channel (v : PyStr) : PyStr :=
  let s := pyLower (pyStrip v)
  if s = [] then []
  else
    match alookup channelMapping s with
    | some r => r
    | none =>
      if s.take 3 = pys "aux" ∧ s.drop 3 ≠ [] ∧ (s.drop 3).all isDigitChar = true then
        pys "AUX" ++ natRepr (digitsToNat (s.drop 3))
      else pyUpper s

/-- Translation of `canonical_channel_order` (src/pw_channels.py lines 7-16;
identical list in src/backend.py lines 280-289). -/
def canonical_channel_order : List PyStr :=
  [ pys "MONO"
  , pys "FL", pys "FR"
  , pys "FC", pys "LFE"
  , pys "SL", pys "SR"
  , pys "RL", pys "RR"
  , pys "AUX0", pys "AUX1", pys "AUX2", pys "AUX3", pys "AUX4", pys "AUX5", pys "AUX6"
  , pys "AUX7", pys "AUX8", pys "AUX9"
  , pys "AUX10", pys "AUX11", pys "AUX12", pys "AUX13", pys "AUX14", pys "AUX15" ]

/-- Translation of the `AudioNode` dataclass (src/models.py lines 8-14).
The props dict is an association list with unique keys. -/
structure AudioNode where
  id : Int
  name : PyStr
  description : PyStr
  media_class : PyStr
  props : List (PyStr × PyStr)
deriving DecidableEq

/-- Translation of the `PwPort` dataclass (src/source/pw_types.py lines 10-18;
identical dataclass in src/backend.py lines 14-22). -/
structure PwPort where
  id : Int
  node_id : Int
  node_name : PyStr
  port_name : PyStr
  direction : PyStr
  channel : PyStr
  full_name : PyStr
deriving DecidableEq

/-- Translation of the `PwLink` dataclass (src/source/pw_types.py lines 21-25). -/
structure PwLink where
  id : Int
  out_port_id : Int
  in_port_id : Int
deriving DecidableEq

/-- Translation of the `PwGraph` dataclass (src/source/pw_types.py lines 28-32).
The Python id-keyed dicts are modelled as insertion-ordered association lists. -/
structure PwGraph where
  nodes : List (Int × AudioNode)
  ports : List (Int × PwPort)
  links : List PwLink
deriving DecidableEq

/-- First-match lookup in an integer-keyed association list (Python `dict.get`). -/
def ilookup {β : Type} (m : List (Int × β)) (k : Int) : Option β :=
  match m with
  | [] => none
  | (k', v) :: t => if k' = k then some v else ilookup t k

/-- Translation of `is_sink_node` (src/source/pw_graph.py lines 20-21; identical
predicate `_is_sink_node` in src/backend.py lines 152-153). -/
def is_sink_node (n : AudioNode) : Bool := n.media_class == pys "Audio/Sink"

/-- The filter applied by `select_ports` (src/source/pw_graph.py line 34):
ports of the node, of the direction, with non-empty full name. -/
def selected_raw (g : PwGraph) (node_id : Int) (direction : PyStr) : List PwPort :=
  (g.ports.map Prod.snd).filter fun p =>
    p.node_id == node_id && p.direction == direction && !p.full_name.isEmpty

/-- Stable ascending sort by port id (Python `sorted(ps, key=lambda x: x.id)`). -/
def sortById (ps : List PwPort) : List PwPort :=
  ps.mergeSort fun a b => a.id ≤ b.id

/-- One iteration of the channel-dictionary loop of `select_ports`
(src/source/pw_graph.py lines 39-41): keep the first port seen per channel. -/
def byChFirstStep (m : List (PyStr × PwPort)) (p : PwPort) : List (PyStr × PwPort) :=
  if !p.channel.isEmpty && (alookup m p.channel).isNone then m ++ [(p.channel, p)] else m

/-- The first-occurrence-wins channel dictionary built by `select_ports`
(src/source/pw_graph.py lines 38-41). -/
def byChFirst (ps : List PwPort) : List (PyStr × PwPort) :=
  ps.foldl byChFirstStep []

/-- Translation of `select_ports` (src/source/pw_graph.py lines 33-56; the body
of `_select_ports_by_direction` in src/backend.py lines 292-313 is the same
algorithm without the early return for an empty filter, which returns the same
value). -/
def select_ports (g : PwGraph) (node_id : Int) (direction : PyStr) : List PwPort :=
  let ps := selected_raw g node_id direction
  if ps.isEmpty then []
  else
    let by_ch := byChFirst ps
    if by_ch.isEmpty then sortById ps
    else
      let out := canonical_channel_order.filterMap fun ch => alookup by_ch ch
      let used := out.map PwPort.id
      out ++ (sortById ps).filter fun p => !used.contains p.id

/-- Following the spec's words (claim C6): if any selected port has a known
channel, first one port per distinct channel — first occurrence wins on a
duplicate channel — in the canonical channel order, then all remaining
selected ports sorted by ascending id; if no selected port has a known
channel, all selected ports sorted by ascending id. -/
def select_ports_spec (g : PwGraph) (node_id : Int) (direction : PyStr) : List PwPort :=
  let ps := selected_raw g node_id direction
  if ps.any (fun p => !p.channel.isEmpty) then
    let reps := canonical_channel_order.filterMap fun ch => ps.find? (fun p => p.channel == ch)
    reps ++ (sortById ps).filter (fun p => !(reps.map PwPort.id).contains p.id)
  else sortById ps

/-- The map invariant of the graph data model: the ports dictionary is keyed
by pairwise-distinct ids and each entry is stored under its own port id. -/
def WellKeyedPorts (g : PwGraph) : Prop :=
  (g.ports.map Prod.fst).Nodup ∧ ∀ kp ∈ g.ports, (kp : Int × PwPort).2.id = kp.1

instance (g : PwGraph) : Decidable (WellKeyedPorts g) := by
  unfold WellKeyedPorts
  infer_instance

/-- One step of the dict comprehension of `map_ports_1_to_1`
(src/source/pw_graph.py lines 63-64): overwrite on key collision. -/
def byChLastStep (m : List (PyStr × PwPort)) (p : PwPort) : List (PyStr × PwPort) :=
  if !p.channel.isEmpty then upsert m p.channel p else m

/-- The last-occurrence-wins channel dictionary built by `map_ports_1_to_1`
(src/source/pw_graph.py lines 63-64: a Python dict comprehension overwrites
earlier entries with the same key). -/
def byChLast (ps : List PwPort) : List (PyStr × PwPort) :=
  ps.foldl byChLastStep []

/-- Translation of `map_ports_1_to_1` (src/source/pw_graph.py lines 59-75;
`_map_ports_1_to_1` in src/backend.py lines 316-335 is the same algorithm).
The positional fallback `for i in range(min(len, len))` is rendered with `zip`. -/
def map_ports_1_to_1 (src dst : List PwPort) : List (PyStr × PyStr) :=
  if src.isEmpty || dst.isEmpty then []
  else
    let s_by := byChLast src
    let d_by := byChLast dst
    let tier1 :=
      if !s_by.isEmpty && !d_by.isEmpty then
        canonical_channel_order.filterMap fun ch =>
          match alookup s_by ch, alookup d_by ch with
          | some a, some b => some (a.full_name, b.full_name)
          | _, _ => none
      else []
    if !tier1.isEmpty then tier1
    else (src.zip dst).map fun ab => (ab.1.full_name, ab.2.full_name)

/-- Translation of `PipeWireHubBackend.current_link_pairs` (src/source/backend.py
lines 203-213; src/backend.py lines 534-551): every link whose two port ids
resolve to ports with non-empty full names contributes its name pair.  The
Python set is modelled as a list whose membership carries the set's meaning. -/
def current_link_pairs (g : PwGraph) : List (PyStr × PyStr) :=
  g.links.filterMap fun lk =>
    match ilookup g.ports lk.out_port_id, ilookup g.ports lk.in_port_id with
    | some op, some ip =>
      if op.full_name.isEmpty || ip.full_name.isEmpty then none
      else some (op.full_name, ip.full_name)
    | _, _ => none

/-- Translation of `PipeWireHubBackend.pairs_exist` (src/source/backend.py
lines 215-219; src/backend.py lines 553-560). -/
def pairs_exist (g : PwGraph) (pairs : List (PyStr × PyStr)) : Bool :=
  if pairs.isEmpty then false
  else pairs.all fun p => (current_link_pairs g).contains p

/-- Model of the Python exceptions raised by the translated code. -/
inductive PyErr where
  | runtimeError (msg : PyStr)
  | typeError
  | valueError
  | indexError
deriving DecidableEq

/-- The message stored by `str(e)` on a caught exception; for `RuntimeError`
it is the constructor message, for the builtin conversion errors the exact
interpreter text is irrelevant to every claim and is fixed here. -/
def PyErr.toMsg : PyErr → PyStr
  | .runtimeError m => m
  | .typeError => pys "TypeError"
  | .valueError => pys "ValueError"
  | .indexError => pys "IndexError"

/-- Result of `subprocess.run` as observed by src/pw_cli.py: exit code and the
two captured streams. -/
structure CmdResult where
  returncode : Int
  stdout : PyStr
  stderr : PyStr
deriving DecidableEq

/-- Substring test (Python `needle in hay`). -/
def hasSub (hay needle : PyStr) : Bool :=
  match hay with
  | [] => needle.isEmpty
  | _ :: t => needle.isPrefixOf hay || hasSub t needle

/-- The error text `(p.stderr or p.stdout).strip()` of src/pw_cli.py line 37. -/
def cmdMsg (p : CmdResult) : PyStr :=
  pyStrip (if p.stderr.isEmpty then p.stdout else p.stderr)

/-- Translation of `pw_link_connect` (src/pw_cli.py lines 30-42; identical
function `_pw_link_connect` in src/backend.py lines 255-265).  The external
`pw-link` invocation is an oracle argument `res`; the returned `Bool` records
whether the external command was invoked on this call. -/
def pw_link_connect (res : CmdResult) (out_full in_full : PyStr) :
    Except PyErr Unit × Bool :=
  if out_full.isEmpty || in_full.isEmpty then
    (Except.error (PyErr.runtimeError (pys "Invalid port names for link creation.")), false)
  else if res.returncode == 0 then (Except.ok (), true)
  else
    let low := pyLower (cmdMsg res)
    if hasSub low (pys "exist") || hasSub low (pys "already") then (Except.ok (), true)
    else
      (Except.error (PyErr.runtimeError
        (pys "pw-link connect failed (" ++ out_full ++ pys " -> " ++ in_full ++ pys "): "
          ++ cmdMsg res)), true)

/-- Translation of `pw_link_disconnect` (src/pw_cli.py lines 45-57; identical
function `_pw_link_disconnect` in src/backend.py lines 268-277).  Every path
returns `None` in the source, so the model only records whether the external
command was invoked. -/
def pw_link_disconnect (res : CmdResult) (out_full in_full : PyStr) :
    Except PyErr Unit × Bool :=
  if out_full.isEmpty || in_full.isEmpty then (Except.ok (), false)
  else if res.returncode == 0 then (Except.ok (), true)
  else (Except.ok (), true)

/-- Translation of `PipeWireHubBackend._find_node_by_name` (src/source/backend.py
lines 58-62; src/backend.py lines 370-374): first node, in dict insertion
order, whose name matches. -/
def find_node_by_name (g : PwGraph) (name : PyStr) : Option AudioNode :=
  (g.nodes.map Prod.snd).find? fun n => n.name == name

/-- The visibility test performed by `ensure_hub_sink` and `hub_exists`: the
first node bearing the hub name exists and is a sink node. -/
def hubVisible (g : PwGraph) (hubName : PyStr) : Bool :=
  match find_node_by_name g hubName with
  | some n => is_sink_node n
  | none => false

/-- Outcome of one `ensure_hub_sink` call. -/
inductive EnsureResult where
  | ok
  | pulseError (msg : PyStr)
  | hubVisibilityError
deriving DecidableEq

/-- Translation of `ensure_hub_sink` (src/source/backend.py lines 81-106;
src/backend.py lines 393-424 is the same control flow).  `g1` is the graph
after the leading `refresh()`, `cp` the outcome of the try-block around the
pulse control plane (`.ok h`: sink found or module loaded, `h` the recorded
module id when this call loaded one), `g2` the graph after the trailing
`refresh()`.  The second component records whether the control plane was
invoked. -/
def ensure_hub_sink (hubName : PyStr) (g1 : PwGraph) (cp : Except PyStr (Option Int))
    (g2 : PwGraph) : EnsureResult × Bool :=
  if hubVisible g1 hubName then (EnsureResult.ok, false)
  else
    match cp with
    | Except.error e =>
      (EnsureResult.pulseError (pys "Failed to ensure hub sink via pipewire-pulse: " ++ e), true)
    | Except.ok _ =>
      if hubVisible g2 hubName then (EnsureResult.ok, true)
      else (EnsureResult.hubVisibilityError, true)

/-- Model of a parsed JSON value as produced by `json.loads`.  Numbers are
modelled as integers (no claim involves fractional ids). -/
inductive JVal where
  | null
  | bool (b : Bool)
  | num (n : Int)
  | str (s : PyStr)
  | arr (xs : List JVal)
  | obj (fields : List (PyStr × JVal))

/-- Recogniser for the JSON null value (Python `v is None`). -/
def JVal.isNull : JVal → Bool
  | .null => true
  | _ => false

/-- Python truthiness of a JSON value. -/
def jTruthy : JVal → Bool
  | .null => false
  | .bool b => b
  | .num n => n != 0
  | .str s => !s.isEmpty
  | .arr xs => !xs.isEmpty
  | .obj fs => !fs.isEmpty

/-- Decimal rendering of an integer (Python `str` of an `int`). -/
def intRepr (n : Int) : PyStr :=
  if n < 0 then 45 :: natRepr n.natAbs else natRepr n.toNat

/-- Model of Python `str(...)` on a JSON value.  For arrays and objects the
exact interpreter rendering is abbreviated; like the real renderings, the
placeholders do not end in a `:Node`/`:Port`/`:Link` role suffix, which is the
only property the translated code consults. -/
def jvalToStr : JVal → PyStr
  | .null => pys "None"
  | .bool b => if b then pys "True" else pys "False"
  | .num n => intRepr n
  | .str s => s
  | .arr _ => pys "[...]"
  | .obj _ => pys "{...}"

/-- In-place insert-or-update for integer-keyed association lists (Python
`d[k] = v` on the id-keyed dicts of the graph builder). -/
def iupsert {β : Type} (m : List (Int × β)) (k : Int) (v : β) : List (Int × β) :=
  match m with
  | [] => [(k, v)]
  | (k', v') :: t => if k' = k then (k, v) :: t else (k', v') :: iupsert t k v

/-- Model of Python `int(...)` applied to a string: optional surrounding
whitespace, optional sign, at least one ASCII digit.  (Underscore digit
grouping is not modelled; no input in this development uses it.) -/
def pyIntOfStr (s : PyStr) : Option Int :=
  match pyStrip s with
  | 45 :: ds => if !ds.isEmpty && ds.all isDigitChar then some (-(digitsToNat ds : Int)) else none
  | 43 :: ds => if !ds.isEmpty && ds.all isDigitChar then some (digitsToNat ds : Int) else none
  | ds => if !ds.isEmpty && ds.all isDigitChar then some (digitsToNat ds : Int) else none

/-- Model of Python `int(x)` applied to `obj.get("id")` in the graph builder
(src/source/pw_dump.py lines 69, 85, 118; src/backend.py lines 188, 204, 237):
a missing key gives `int(None)`, a `TypeError`; a non-numeric string raises
`ValueError`; booleans and integers convert. -/
def pyIntCoerce : Option JVal → Except PyErr Int
  | none => Except.error PyErr.typeError
  | some .null => Except.error PyErr.typeError
  | some (.bool b) => Except.ok (if b then 1 else 0)
  | some (.num n) => Except.ok n
  | some (.str s) =>
    match pyIntOfStr s with
    | some n => Except.ok n
    | none => Except.error PyErr.valueError
  | some (.arr _) => Except.error PyErr.typeError
  | some (.obj _) => Except.error PyErr.typeError

/-- The `type` string of a raw object: `str(obj.get("type") or "")`
(src/source/pw_dump.py line 66). -/
def typeStr (fields : List (PyStr × JVal)) : PyStr :=
  match alookup fields (pys "type") with
  | none => []
  | some v => if jTruthy v then jvalToStr v else []

/-- One merge step of `props_from_obj`: stringify the values of one candidate
source if it is a dict, else leave the accumulator unchanged
(src/source/pw_dump.py lines 14-26; `_props` in src/backend.py lines 43-58).
Keys are already strings in the model, so `str(k)` never fails; `str(v)`
becomes the empty string for `None`. -/
def mergePropsFrom (out : List (PyStr × PyStr)) : Option JVal → List (PyStr × PyStr)
  | some (.obj fs) =>
    fs.foldl (fun acc kv => upsert acc kv.1 (if kv.2.isNull then [] else jvalToStr kv.2)) out
  | _ => out

/-- The value of `obj.get("props") or {}` viewed as a merge source: a falsy
value becomes the empty dict; a truthy non-dict survives the `or` but is then
skipped by the `isinstance` guard, which `mergePropsFrom` also does. -/
def propsField (fields : List (PyStr × JVal)) (key : PyStr) : Option JVal :=
  alookup fields key

/-- Translation of `props_from_obj` (src/source/pw_dump.py lines 12-27;
`_props` in src/backend.py lines 43-58).  The second source is
`(obj.get("info") or {}).get("props")`: when the `info` field is a truthy
non-dict, `.get` on it raises `AttributeError` in Python, modelled here as an
error. -/
def props_from_obj (fields : List (PyStr × JVal)) : Except PyErr (List (PyStr × PyStr)) := do
  let first := mergePropsFrom [] (propsField fields (pys "props"))
  match alookup fields (pys "info") with
  | none => pure first
  | some info =>
    if !(jTruthy info) then pure first
    else
      match info with
      | .obj infoFields => pure (mergePropsFrom first (alookup infoFields (pys "props")))
      | _ => Except.error (PyErr.runtimeError (pys "AttributeError"))

/-- Dict lookup with `""` default (`pr.get(k, "")` / `pr.get(k) or ""`). -/
def getStr (pr : List (PyStr × PyStr)) (k : PyStr) : PyStr := (alookup pr k).getD []

/-- Translation of `node_name` (src/source/pw_dump.py lines 34-35). -/
def node_name (pr : List (PyStr × PyStr)) : PyStr := getStr pr (pys "node.name")

/-- Translation of `node_desc` (src/source/pw_dump.py lines 38-39): first
non-empty of description, nick, name. -/
def node_desc (pr : List (PyStr × PyStr)) : PyStr :=
  let d := getStr pr (pys "node.description")
  if !d.isEmpty then d
  else
    let n := getStr pr (pys "node.nick")
    if !n.isEmpty then n else getStr pr (pys "node.name")

/-- Translation of `node_media_class` (src/source/pw_dump.py lines 30-31). -/
def node_media_class (pr : List (PyStr × PyStr)) : PyStr := getStr pr (pys "media.class")

/-- Translation of `port_name` (src/source/pw_dump.py lines 42-43). -/
def port_name (pr : List (PyStr × PyStr)) : PyStr := getStr pr (pys "port.name")

/-- Translation of `port_direction` (src/source/pw_dump.py lines 46-53;
`_get_port_direction` in src/backend.py lines 77-84).  A truthy non-string
`direction` field inside a dict-valued `info` makes `.strip()` raise
`AttributeError` in Python, modelled as an error. -/
def port_direction (pr : List (PyStr × PyStr)) (info : JVal) : Except PyErr PyStr := do
  let d := pyLower (pyStrip (getStr pr (pys "port.direction")))
  if d = pys "in" ∨ d = pys "out" then pure d
  else
    let d2 ← (match info with
      | .obj infoFields =>
        match alookup infoFields (pys "direction") with
        | none => pure ([] : PyStr)
        | some v =>
          if !(jTruthy v) then pure ([] : PyStr)
          else match v with
            | .str s => pure (pyLower (pyStrip s))
            | _ => Except.error (PyErr.runtimeError (pys "AttributeError"))
      | _ => pure ([] : PyStr))
    if d2 = pys "in" ∨ d2 = pys "out" then pure d2 else pure []

/-- Python `str.split(sep)` on one separator code point, keeping empty pieces. -/
def pySplit (s : PyStr) (sep : Nat) : List PyStr :=
  s.foldr (fun c acc =>
    if c == sep then [] :: acc
    else match acc with
      | h :: t => (c :: h) :: t
      | [] => [[c]]) [[]]

/-- The short channel codes probed as port-name suffixes
(src/pw_channels.py line 62; src/backend.py line 137). -/
def suffixTags : List PyStr :=
  [pys "FL", pys "FR", pys "FC", pys "LFE", pys "RL", pys "RR", pys "SL", pys "SR", pys "MONO"]

/-- Translation of `channel_from_port_props` (src/pw_channels.py lines 46-66;
`_channel_from_port` in src/backend.py lines 122-140 differs only in skipping
the pre-strip of the explicit property, which `normalize_channel` redoes). -/
def channel_from_port_props (pr : List (PyStr × PyStr)) : PyStr :=
  let explicit := getStr pr (pys "audio.channel")
  let explicit := if !explicit.isEmpty then explicit else getStr pr (pys "audio.position")
  let v := pyStrip explicit
  if !v.isEmpty then normalize_channel v
  else
    let pn := pyStrip (getStr pr (pys "port.name"))
    if pn.isEmpty then []
    else
      let parts := pySplit pn 95
      let fromTail :=
        if parts.length ≥ 2 then normalize_channel (parts.getLastD []) else []
      if !fromTail.isEmpty then fromTail
      else
        let up := pyUpper pn
        ((suffixTags.find? fun tag => tag.isSuffixOf up).getD [])

/-- Python `str.split(sep, 1)`: one or two pieces. -/
def splitOnce (s : PyStr) (sep : Nat) : List PyStr :=
  match s.span (fun c => !(c == sep)) with
  | (before, []) => [before]
  | (before, _ :: after) => [before, after]

/-- The node pass of the graph builder (src/source/pw_dump.py lines 63-77;
src/backend.py lines 182-196): objects whose type string ends in `:Node`.
The unguarded `int(obj.get("id"))` propagates its exception. -/
def parseNodes (data : List JVal) : Except PyErr (List (Int × AudioNode)) :=
  data.foldlM (fun nodes o =>
    match o with
    | .obj fields =>
      if (pys ":Node").isSuffixOf (typeStr fields) then do
        let oid ← pyIntCoerce (alookup fields (pys "id"))
        let pr ← props_from_obj fields
        pure (iupsert nodes oid
          ⟨oid, node_name pr, node_desc pr, node_media_class pr, pr⟩)
      else pure nodes
    | _ => pure nodes) []

/-- The port pass of the graph builder (src/source/pw_dump.py lines 79-110;
src/backend.py lines 198-229). -/
def parsePorts (nodes : List (Int × AudioNode)) (data : List JVal) :
    Except PyErr (List (Int × PwPort)) :=
  data.foldlM (fun ports o =>
    match o with
    | .obj fields =>
      if (pys ":Port").isSuffixOf (typeStr fields) then do
        let oid ← pyIntCoerce (alookup fields (pys "id"))
        let pr ← props_from_obj fields
        let info := (alookup fields (pys "info")).getD (JVal.obj [])
        let nid : Int :=
          (match alookup pr (pys "node.id") with
           | none => some 0
           | some s => pyIntOfStr s).getD 0
        let nname := ((ilookup nodes nid).map AudioNode.name).getD []
        let pname := port_name pr
        let direc ← port_direction pr info
        let ch := channel_from_port_props pr
        let full := if !nname.isEmpty && !pname.isEmpty then nname ++ 58 :: pname else []
        pure (iupsert ports oid ⟨oid, nid, nname, pname, direc, ch, full⟩)
      else pure ports
    | _ => pure ports) []

/-- The link pass of the graph builder (src/source/pw_dump.py lines 112-131;
src/backend.py lines 231-250): the id conversion is unguarded, while missing
or unparsable `link.output.port` / `link.input.port` fields drop the record
silently. -/
def parseLinks (data : List JVal) : Except PyErr (List PwLink) :=
  data.foldlM (fun links o =>
    match o with
    | .obj fields =>
      if (pys ":Link").isSuffixOf (typeStr fields) then do
        let oid ← pyIntCoerce (alookup fields (pys "id"))
        let pr ← props_from_obj fields
        let out_pid :=
          let a := getStr pr (pys "link.output.port")
          if !a.isEmpty then a else getStr pr (pys "link.output.port.id")
        let in_pid :=
          let a := getStr pr (pys "link.input.port")
          if !a.isEmpty then a else getStr pr (pys "link.input.port.id")
        if out_pid.isEmpty || in_pid.isEmpty then pure links
        else
          match pyIntOfStr out_pid, pyIntOfStr in_pid with
          | some out_i, some in_i => pure (links ++ [⟨oid, out_i, in_i⟩])
          | _, _ => pure links
      else pure links
    | _ => pure links) []

/-- Translation of the body of `dump_graph` after a successful dump
(src/source/pw_dump.py lines 56-133; src/backend.py lines 178-252): nodes,
then ports resolved against the nodes, then links. -/
def build_graph (data : List JVal) : Except PyErr PwGraph := do
  let nodes ← parseNodes data
  let ports ← parsePorts nodes data
  let links ← parseLinks data
  pure ⟨nodes, ports, links⟩

/-- Translation of `pw_dump_json` + `dump_graph` (src/pw_cli.py lines 13-27 and
src/source/pw_dump.py lines 56-133; `_pw_dump_graph` in src/backend.py lines
165-252 inlines the same three checks).  `res` is the external `pw-dump`
process result and `parsed` the outcome of `json.loads` on its stdout. -/
def pw_dump_graph (res : CmdResult) (parsed : Except PyStr JVal) : Except PyErr PwGraph :=
  if res.returncode != 0 then
    Except.error (PyErr.runtimeError (pys "pw-dump failed: " ++ cmdMsg res))
  else
    match parsed with
    | Except.error e =>
      Except.error (PyErr.runtimeError (pys "pw-dump output is not valid JSON: " ++ e))
    | Except.ok v =>
      match v with
      | .arr data => build_graph data
      | _ => Except.error (PyErr.runtimeError (pys "pw-dump output JSON is not a list"))

/-- The backend state carried across `refresh` calls (the `_graph` attribute of
`PipeWireHubBackend`, src/source/backend.py line 34). -/
structure BackendState where
  graph : PwGraph
deriving DecidableEq

/-- Translation of `PipeWireHubBackend.refresh` (src/source/backend.py lines
39-40; src/backend.py lines 351-352): `self._graph = dump_graph()`.  Python
evaluates the right-hand side first, so when the dump raises, the exception
propagates and the assignment never happens; the state is returned alongside
the outcome to express this. -/
def refresh (st : BackendState) (res : CmdResult) (parsed : Except PyStr JVal) :
    Except PyErr Unit × BackendState :=
  match pw_dump_graph res parsed with
  | Except.error e => (Except.error e, st)
  | Except.ok g => (Except.ok (), { st with graph := g })

/-- Translation of the `InputChoice` dataclass (src/models.py lines 17-22). -/
structure InputChoice where
  kind : PyStr
  key : PyStr
  display : PyStr
deriving DecidableEq

/-- The logical state of an `InputRow` (src/source/rows.py lines 36-41 plus the
switch and combo selection it reads: `_applied_choice_key`, `_pairs`,
`_actual_on`, `_remove_pending`, `_error`, `self.switch.isChecked()`,
`self.combo.currentData()`). -/
structure InputRowState where
  applied_choice_key : Option PyStr
  pairs : List (PyStr × PyStr)
  actual_on : Bool
  remove_pending : Bool
  error : Option PyStr
  switch_on : Bool
  combo_choice : Option InputChoice
deriving DecidableEq

/-- Translation of `InputRow._desired_on` (src/source/rows.py lines 69-70). -/
def InputRowState.desired_on (st : InputRowState) : Bool :=
  st.switch_on && !st.remove_pending

/-- Translation of `InputRow.reconcile` (src/source/rows.py lines 76-81): the
new actual bit against the backend's current snapshot, without refreshing.
The `except` branch is unreachable in the model because `pairs_exist` is
total. -/
def InputRowState.reconcile (st : InputRowState) (g : PwGraph) : InputRowState :=
  { st with actual_on := !st.pairs.isEmpty && pairs_exist g st.pairs }

/-- The try-block of the desired-on branch of `InputRow.apply`
(src/source/rows.py lines 188-207): parse the node id out of the selection
key, dispatch on the kind to a backend connect call (`oracle`), or raise for
an unknown kind.  Failures of the split, the int conversion and the backend
call are all caught by the same `except`. -/
def input_connect_step (choice : InputChoice)
    (oracle : PyStr → Int → Except PyErr (List (PyStr × PyStr))) :
    Except PyErr (List (PyStr × PyStr)) :=
  match splitOnce choice.key 58 with
  | [_, rest] =>
    match pyIntOfStr rest with
    | none => Except.error PyErr.valueError
    | some nid =>
      if choice.kind = pys "stream" then oracle (pys "stream") nid
      else if choice.kind = pys "source" then oracle (pys "source") nid
      else if choice.kind = pys "sink" then oracle (pys "sink") nid
      else Except.error (PyErr.runtimeError (pys "Unknown input kind."))
  | _ => Except.error PyErr.indexError

/-- Translation of `InputRow.apply` (src/source/rows.py lines 141-215).  The
returned `Bool` is the source's return value ("row fully removed").  The
backend's connect call is the oracle; `disconnect_pairs` mutates no row state
and its exceptions are swallowed at lines 146-148, 157-159, 180-182. -/
def InputRowState.apply (st : InputRowState)
    (oracle : PyStr → Int → Except PyErr (List (PyStr × PyStr))) :
    Bool × InputRowState :=
  let st0 := { st with error := none }
  if st0.remove_pending then
    (true, { st0 with pairs := [], actual_on := false, applied_choice_key := none })
  else if !st0.desired_on then
    (false, { st0 with pairs := [], actual_on := false, applied_choice_key := none })
  else
    match st0.combo_choice with
    | none => (false, { st0 with error := some (pys "No selection.") })
    | some choice =>
      let sel_key := choice.key
      let needs := !st0.actual_on || !(st0.applied_choice_key == some sel_key)
      if !needs then (false, st0)
      else
        let st1 := { st0 with pairs := [], actual_on := false, applied_choice_key := none }
        match input_connect_step choice oracle with
        | Except.ok ps =>
          (false, { st1 with pairs := ps, actual_on := true, applied_choice_key := some sel_key })
        | Except.error e => (false, { st1 with error := some e.toMsg })

/-- The logical state of an `OutputRow` (src/source/rows.py lines 237-242 plus
the switch and combo it reads). -/
structure OutputRowState where
  applied_sink_id : Option Int
  pairs : List (PyStr × PyStr)
  actual_on : Bool
  remove_pending : Bool
  error : Option PyStr
  switch_on : Bool
  combo_data : Option PyStr
deriving DecidableEq

/-- Translation of `OutputRow._desired_on` (src/source/rows.py lines 266-267). -/
def OutputRowState.desired_on (st : OutputRowState) : Bool :=
  st.switch_on && !st.remove_pending

/-- Translation of `OutputRow._selected_sink_id` (src/source/rows.py lines
269-276); a combo payload that is not a string is modelled as `none`. -/
def OutputRowState.selected_sink_id (st : OutputRowState) : Option Int :=
  match st.combo_data with
  | none => none
  | some d =>
    if (pys "sink:").isPrefixOf d then
      match splitOnce d 58 with
      | [_, rest] => pyIntOfStr rest
      | _ => none
    else none

/-- Translation of `OutputRow.reconcile` (src/source/rows.py lines 281-286). -/
def OutputRowState.reconcile (st : OutputRowState) (g : PwGraph) : OutputRowState :=
  { st with actual_on := !st.pairs.isEmpty && pairs_exist g st.pairs }

/-- Translation of `OutputRow.apply` (src/source/rows.py lines 346-404).  The
oracle is `backend.connect_hub_to_sink`. -/
def OutputRowState.apply (st : OutputRowState)
    (oracle : Int → Except PyErr (List (PyStr × PyStr))) :
    Bool × OutputRowState :=
  let st0 := { st with error := none }
  if st0.remove_pending then
    (true, { st0 with pairs := [], actual_on := false, applied_sink_id := none })
  else if !st0.desired_on then
    (false, { st0 with pairs := [], actual_on := false, applied_sink_id := none })
  else
    match st0.selected_sink_id with
    | none => (false, { st0 with error := some (pys "No selection.") })
    | some sink_id =>
      let needs := !st0.actual_on || !(st0.applied_sink_id == some sink_id)
      if !needs then (false, st0)
      else
        let st1 := { st0 with pairs := [], actual_on := false, applied_sink_id := none }
        match oracle sink_id with
        | Except.ok ps =>
          (false, { st1 with pairs := ps, actual_on := true, applied_sink_id := some sink_id })
        | Except.error e => (false, { st1 with error := some e.toMsg })

end ASyphon

namespace ASyphon

/-- Fixture: an out-direction port carrying the non-canonical channel `XX`. -/
def portA : PwPort := ⟨1, 10, pys "a", pys "oa", pys "out", pys "XX", pys "a:oa"⟩

/-- Fixture: an out-direction port carrying channel `FL`. -/
def portB : PwPort := ⟨2, 10, pys "b", pys "ob", pys "out", pys "FL", pys "b:ob"⟩

/-- Fixture: an in-direction port carrying the non-canonical channel `XX`. -/
def portC : PwPort := ⟨3, 20, pys "c", pys "ic", pys "in", pys "XX", pys "c:ic"⟩

/-- Fixture: an in-direction port carrying channel `FR`. -/
def portD : PwPort := ⟨4, 20, pys "d", pys "id", pys "in", pys "FR", pys "d:id"⟩

/-- Fixture: an untagged out-direction port. -/
def portE : PwPort := ⟨5, 10, pys "e", pys "oe", pys "out", [], pys "e:oe"⟩

/-- Fixture: an untagged in-direction port. -/
def portF : PwPort := ⟨6, 20, pys "f", pys "if", pys "in", [], pys "f:if"⟩

/-- Fixture: a second untagged in-direction port. -/
def portG : PwPort := ⟨7, 20, pys "g", pys "ig", pys "in", [], pys "g:ig"⟩

/-- Fixture: an out-direction port carrying channel `FR`. -/
def portH : PwPort := ⟨8, 10, pys "h", pys "oh", pys "out", pys "FR", pys "h:oh"⟩

/-- Fixture: an in-direction port carrying channel `FL`. -/
def portI : PwPort := ⟨9, 20, pys "i", pys "ii", pys "in", pys "FL", pys "i:ii"⟩

/-- Fixture graph for the port-selection witness: three out-direction ports of
node 10, stored under their own ids. -/
def c6Graph : PwGraph := ⟨[], [(2, portB), (1, portA), (5, portE)], []⟩

/-- Fixture input-row state for the connect-failure witness: switched on, no
applied state, a stream selection. -/
def c3InputState : InputRowState :=
  ⟨none, [], false, false, none, true, some ⟨pys "stream", pys "stream:5", pys "s"⟩⟩

/-- Fixture backend oracle whose connect calls always fail. -/
def c3FailOracle : PyStr → Int → Except PyErr (List (PyStr × PyStr)) :=
  fun _ _ => Except.error (PyErr.runtimeError (pys "No compatible port pairs for stream -> hub."))

/-- Fixture output-row state for the connect-failure witness. -/
def c3OutputState : OutputRowState :=
  ⟨none, [], false, false, none, true, some (pys "sink:7")⟩

/-- Fixture hub-to-sink oracle that always fails. -/
def c3FailSinkOracle : Int → Except PyErr (List (PyStr × PyStr)) :=
  fun _ => Except.error (PyErr.runtimeError (pys "Cannot link: missing hub monitor ports or sink input ports."))

/-- Fixture: a non-sink node bearing the hub's well-known name. -/
def hubImposter : AudioNode := ⟨1, pys "asiphon", pys "imp", pys "Audio/Source", []⟩

/-- Fixture: a sink node bearing the hub's well-known name. -/
def hubSinkNode : AudioNode := ⟨2, pys "asiphon", pys "hub", pys "Audio/Sink", []⟩

/-- Fixture graph in which a non-sink node named like the hub precedes the
actual hub sink in dict order. -/
def dupNameGraph : PwGraph := ⟨[(1, hubImposter), (2, hubSinkNode)], [], []⟩

/-- Fixture graph containing exactly the hub sink. -/
def hubOnlyGraph : PwGraph := ⟨[(2, hubSinkNode)], [], []⟩

/-- Claim C1, counterexample.  The claim states that `connect(out, in)` with an
empty endpoint name returns as a no-op without raising; in the source
(`pw_link_connect`, src/pw_cli.py lines 30-32) it raises
`RuntimeError("Invalid port names for link creation.")` instead, though indeed
without invoking the external command. -/
theorem c1_counterexample :
    (pw_link_connect ⟨0, [], []⟩ (pys "") (pys "x")).1 =
      Except.error (PyErr.runtimeError (pys "Invalid port names for link creation.")) ∧
    (pw_link_connect ⟨0, [], []⟩ (pys "") (pys "x")).2 = false := by
  constructor <;> rfl

/-- Claim C1, amended.  Whenever either endpoint name is empty, neither
operation invokes the external link command; `disconnect` returns immediately
as a no-op, while `connect` raises `RuntimeError` immediately. -/
theorem c1_empty_name_behavior (res : CmdResult) (o i : PyStr)
    (h : o = [] ∨ i = []) :
    pw_link_disconnect res o i = (Except.ok (), false) ∧
    pw_link_connect res o i =
      (Except.error (PyErr.runtimeError (pys "Invalid port names for link creation.")), false) := by
  rcases h with h | h <;> subst h <;>
    simp [pw_link_disconnect, pw_link_connect, List.isEmpty_iff]

/-- Claim C1, witness for the amended theorem at the empty output name. -/
theorem c1_empty_name_behavior_witness :
    (pys "" = ([] : PyStr) ∨ pys "x" = ([] : PyStr)) ∧
    (pw_link_disconnect ⟨0, [], []⟩ (pys "") (pys "x") = (Except.ok (), false) ∧
     pw_link_connect ⟨0, [], []⟩ (pys "") (pys "x") =
       (Except.error (PyErr.runtimeError (pys "Invalid port names for link creation.")), false)) :=
  ⟨Or.inl rfl, c1_empty_name_behavior ⟨0, [], []⟩ (pys "") (pys "x") (Or.inl rfl)⟩

/-- Claim C2: for both row kinds, `reconcile` recomputes `actualOn` as true
iff the remembered applied-pairs memo is non-empty and every remembered pair
is present, as a pair of qualified port names, in the current snapshot's link
set; any missing pair makes it false. -/
theorem c2_reconcile_actual_on (stIn : InputRowState) (stOut : OutputRowState) (g : PwGraph) :
    ((stIn.reconcile g).actual_on = true ↔
      stIn.pairs ≠ [] ∧ ∀ p ∈ stIn.pairs, p ∈ current_link_pairs g) ∧
    ((stOut.reconcile g).actual_on = true ↔
      stOut.pairs ≠ [] ∧ ∀ p ∈ stOut.pairs, p ∈ current_link_pairs g) := by
  constructor <;>
    simp [InputRowState.reconcile, OutputRowState.reconcile, pairs_exist,
      List.isEmpty_iff, List.all_eq_true, List.contains, List.elem_eq_mem]

/-- Claim C8: when the dump command exits non-zero, its output is not valid
JSON, or the JSON value is not an array, `refresh` raises (a `RuntimeError`
modelling `DumpError`) and the stored backend state, in particular its graph,
is exactly the state before the call. -/
theorem c8_refresh_keeps_stale_graph (st : BackendState) (res : CmdResult)
    (parsed : Except PyStr JVal) :
    (res.returncode ≠ 0 →
      (refresh st res parsed).2 = st ∧
      (refresh st res parsed).1 =
        Except.error (PyErr.runtimeError (pys "pw-dump failed: " ++ cmdMsg res))) ∧
    (∀ e, res.returncode = 0 → parsed = Except.error e →
      (refresh st res parsed).2 = st ∧
      (refresh st res parsed).1 =
        Except.error (PyErr.runtimeError (pys "pw-dump output is not valid JSON: " ++ e))) ∧
    (∀ v, res.returncode = 0 → parsed = Except.ok v → (∀ xs, v ≠ JVal.arr xs) →
      (refresh st res parsed).2 = st ∧
      (refresh st res parsed).1 =
        Except.error (PyErr.runtimeError (pys "pw-dump output JSON is not a list"))) := by
  refine ⟨fun h => ?_, fun e h he => ?_, fun v h hv hne => ?_⟩
  · simp [refresh, pw_dump_graph, bne_iff_ne, h]
  · subst he
    simp [refresh, pw_dump_graph, bne_iff_ne, h]
  · subst hv
    cases v <;> simp_all [refresh, pw_dump_graph, bne_iff_ne, h]

/-- Claim C8, witness: a non-zero dump exit at a concrete state. -/
theorem c8_refresh_keeps_stale_graph_witness :
    ((1 : Int) ≠ 0) ∧
    ((refresh ⟨⟨[], [], []⟩⟩ ⟨1, [], pys "boom"⟩ (Except.ok JVal.null)).2 = ⟨⟨[], [], []⟩⟩ ∧
     (refresh ⟨⟨[], [], []⟩⟩ ⟨1, [], pys "boom"⟩ (Except.ok JVal.null)).1 =
       Except.error (PyErr.runtimeError
         (pys "pw-dump failed: " ++ cmdMsg ⟨1, [], pys "boom"⟩))) :=
  ⟨by decide,
   (c8_refresh_keeps_stale_graph ⟨⟨[], [], []⟩⟩ ⟨1, [], pys "boom"⟩ (Except.ok JVal.null)).1
     (by decide)⟩

/-- Claim C10: a well-formed JSON array containing an object whose type string
ends in `:Node`, `:Port` or `:Link` but whose `id` field is absent or not
convertible to an integer makes the graph build raise (`TypeError` from
`int(None)`, `ValueError` from `int("abc")`) instead of dropping the object,
while a link object with a good id but unparsable `link.output.port` /
`link.input.port` fields is dropped silently and the build succeeds. -/
theorem c10_build_graph_raises_on_malformed_id :
    build_graph [JVal.obj [(pys "type", JVal.str (pys "x:Node"))]] =
      Except.error PyErr.typeError ∧
    build_graph [JVal.obj [(pys "type", JVal.str (pys "x:Port")),
        (pys "id", JVal.str (pys "abc"))]] =
      Except.error PyErr.valueError ∧
    build_graph [JVal.obj [(pys "type", JVal.str (pys "x:Link"))]] =
      Except.error PyErr.typeError ∧
    build_graph [JVal.obj [(pys "type", JVal.str (pys "x:Link")), (pys "id", JVal.num 7),
        (pys "props", JVal.obj [(pys "link.output.port", JVal.str (pys "zz")),
          (pys "link.input.port", JVal.str (pys "3"))])]] =
      Except.ok ⟨[], [], []⟩ :=
  ⟨rfl, rfl, rfl, rfl⟩

/-- Lookup after an in-place insert-or-update. -/
theorem alookup_upsert {β : Type} (m : List (PyStr × β)) (k : PyStr) (v : β) (q : PyStr) :
    alookup (upsert m k v) q = if k = q then some v else alookup m q := by
  induction m with
  | nil => simp [upsert, alookup]
  | cons kv t ih =>
    obtain ⟨k1, v1⟩ := kv
    by_cases h1 : k1 = k
    · subst h1
      by_cases h2 : k1 = q <;> simp [upsert, alookup, h2]
    · by_cases h2 : k1 = q
      · subst h2
        have hk : ¬k = k1 := fun h => h1 h.symm
        simp [upsert, alookup, h1, hk]
      · simp [upsert, alookup, h1, h2, ih]

/-- An insert-or-update never produces the empty dictionary. -/
theorem upsert_ne_nil {β : Type} (m : List (PyStr × β)) (k : PyStr) (v : β) :
    upsert m k v ≠ [] := by
  cases m with
  | nil => simp [upsert]
  | cons kv t =>
    obtain ⟨k1, v1⟩ := kv
    by_cases h : k1 = k <;> simp [upsert, h]

/-- Lookup distributes over dictionary append, first dictionary first. -/
theorem alookup_append {β : Type} (m1 m2 : List (PyStr × β)) (q : PyStr) :
    alookup (m1 ++ m2) q =
      match alookup m1 q with
      | some v => some v
      | none => alookup m2 q := by
  induction m1 with
  | nil => simp [alookup]
  | cons kv t ih =>
    obtain ⟨k1, v1⟩ := kv
    by_cases h : k1 = q <;> simp [alookup, h, ih]

/-- The comprehension step of `map_ports_1_to_1` keeps the accumulator non-empty. -/
theorem foldl_byChLastStep_ne_nil (ps : List PwPort) :
    ∀ acc : List (PyStr × PwPort), acc ≠ [] → ps.foldl byChLastStep acc ≠ [] := by
  induction ps with
  | nil => intro acc h; simpa using h
  | cons pp t ih =>
    intro acc h
    have hstep : byChLastStep acc pp ≠ [] := by
      unfold byChLastStep
      split
      · exact upsert_ne_nil acc pp.channel pp
      · exact h
    simpa using ih (byChLastStep acc pp) hstep

/-- The channel dictionary of `map_ports_1_to_1` is empty iff no input port is
channel-tagged. -/
theorem byChLast_eq_nil_iff (ps : List PwPort) :
    byChLast ps = [] ↔ ∀ p ∈ ps, p.channel = [] := by
  unfold byChLast
  induction ps with
  | nil => simp
  | cons pp t ih =>
    by_cases h : pp.channel = []
    · simp only [List.foldl_cons, byChLastStep, h]
      simpa [h] using ih
    · constructor
      · intro hfold
        exfalso
        refine foldl_byChLastStep_ne_nil t (byChLastStep [] pp) ?_ ?_
        · unfold byChLastStep
          have : ¬pp.channel.isEmpty := by simpa [List.isEmpty_iff] using h
          simp only [this, Bool.not_false, if_pos]
          exact upsert_ne_nil [] pp.channel pp
        · simpa using hfold
      · intro hall
        exact absurd (hall pp (List.mem_cons_self pp t)) h

/-- Lookup in the folded channel dictionary of `map_ports_1_to_1`: the last
matching port of the scanned prefix wins, with the starting accumulator as
fallback. -/
theorem alookup_foldl_byChLastStep (ps : List PwPort) :
    ∀ (acc : List (PyStr × PwPort)) (ch : PyStr), ch ≠ [] →
      alookup (ps.foldl byChLastStep acc) ch =
        match ps.reverse.find? (fun p => p.channel == ch) with
        | some p => some p
        | none => alookup acc ch := by
  induction ps with
  | nil => intro acc ch _; simp
  | cons pp t ih =>
    intro acc ch hch
    simp only [List.foldl_cons, List.reverse_cons, List.find?_append]
    rw [ih (byChLastStep acc pp) ch hch]
    cases hf : t.reverse.find? (fun p => p.channel == ch) with
    | some q => simp [hf]
    | none =>
      simp only [hf]
      by_cases hpc : pp.channel = ch
      · have hfp : [pp].find? (fun p => p.channel == ch) = some pp := by
          simp [List.find?, hpc]
        simp only [hfp]
        unfold byChLastStep
        have hne : pp.channel.isEmpty = false := by
          rw [hpc]; simpa [List.isEmpty_iff] using hch
        simp [hne, alookup_upsert, hpc, if_neg hch]
      · have hbeq : (pp.channel == ch) = false := beq_eq_false_iff_ne.mpr hpc
        have hfp : [pp].find? (fun p => p.channel == ch) = none := by
          simp [List.find?, hbeq]
        simp only [hfp]
        unfold byChLastStep
        split
        · simp [alookup_upsert, hpc]
        · simp

/-- Lookup in the channel dictionary of `map_ports_1_to_1` finds the last
port carrying that channel. -/
theorem byChLast_lookup (ps : List PwPort) (ch : PyStr) (hch : ch ≠ []) :
    alookup (byChLast ps) ch = ps.reverse.find? (fun p => p.channel == ch) := by
  unfold byChLast
  rw [alookup_foldl_byChLastStep ps [] ch hch]
  cases ps.reverse.find? (fun p => p.channel == ch) <;> simp [alookup]

/-- On a list whose matches are unique, searching from either end finds the
same element. -/
theorem find?_reverse_of_unique {α : Type} (l : List α) (f : α → Bool)
    (h : ∀ a ∈ l, ∀ b ∈ l, f a = true → f b = true → a = b) :
    l.reverse.find? f = l.find? f := by
  cases hf : l.find? f with
  | none =>
    rw [List.find?_eq_none] at hf
    rw [List.find?_eq_none]
    intro x hx
    exact hf x (List.mem_reverse.mp hx)
  | some a =>
    have ha := List.find?_some hf
    have hm := List.mem_of_find?_eq_some hf
    cases hr : l.reverse.find? f with
    | none =>
      rw [List.find?_eq_none] at hr
      exact absurd ha (hr a (List.mem_reverse.mpr hm))
    | some b =>
      have hb := List.find?_some hr
      have hmb := List.mem_reverse.mp (List.mem_of_find?_eq_some hr)
      rw [h a hm b hmb ha hb]

/-- Claim C3: when a row's `apply` runs its desired-on branch and the
connect/pairing step fails, the error is caught at the slot boundary: applied
state is cleared (`pairs` emptied, applied selection key / sink id cleared,
`actualOn` false), the message is recorded as the row's error, and `apply`
returns normally with `false` (row not removed). -/
theorem c3_apply_connect_failure :
    (∀ (st : InputRowState) (oracle : PyStr → Int → Except PyErr (List (PyStr × PyStr)))
        (choice : InputChoice) (e : PyErr),
      st.remove_pending = false → st.desired_on = true →
      st.combo_choice = some choice →
      (!st.actual_on || !(st.applied_choice_key == some choice.key)) = true →
      input_connect_step choice oracle = Except.error e →
      st.apply oracle = (false, { st with pairs := [], actual_on := false, applied_choice_key := none, error := some e.toMsg })) ∧
    (∀ (st : OutputRowState) (oracle : Int → Except PyErr (List (PyStr × PyStr)))
        (sink_id : Int) (e : PyErr),
      st.remove_pending = false → st.desired_on = true →
      st.selected_sink_id = some sink_id →
      (!st.actual_on || !(st.applied_sink_id == some sink_id)) = true →
      oracle sink_id = Except.error e →
      st.apply oracle = (false, { st with pairs := [], actual_on := false, applied_sink_id := none, error := some e.toMsg })) := by
  constructor
  · intro st oracle choice e h1 h2 h3 h4 h5
    have hsw : st.switch_on = true := by
      simpa [InputRowState.desired_on, h1] using h2
    simp [InputRowState.apply, InputRowState.desired_on, h1, hsw, h3, h4, h5]
  · intro st oracle sink_id e h1 h2 h3 h4 h5
    have hsw : st.switch_on = true := by
      simpa [OutputRowState.desired_on, h1] using h2
    have h3' : ({ st with error := none } : OutputRowState).selected_sink_id = some sink_id := by
      rw [show ({ st with error := none } : OutputRowState).selected_sink_id = st.selected_sink_id from rfl]
      exact h3
    simp only [h1, hsw] at h3'
    simp [OutputRowState.apply, OutputRowState.desired_on, h1, hsw, h3', h4, h5]

/-- Claim C3, witness: a switched-on input row whose stream connect fails, and
a switched-on output row whose sink connect fails. -/
theorem c3_apply_connect_failure_witness :
    (c3InputState.remove_pending = false ∧ c3InputState.desired_on = true ∧
     c3InputState.combo_choice = some ⟨pys "stream", pys "stream:5", pys "s"⟩ ∧
     (!c3InputState.actual_on ||
       !(c3InputState.applied_choice_key == some (pys "stream:5"))) = true ∧
     input_connect_step ⟨pys "stream", pys "stream:5", pys "s"⟩ c3FailOracle =
       Except.error (PyErr.runtimeError (pys "No compatible port pairs for stream -> hub.")) ∧
     c3InputState.apply c3FailOracle = (false, { c3InputState with pairs := [], actual_on := false, applied_choice_key := none, error := some (pys "No compatible port pairs for stream -> hub.") })) ∧
    (c3OutputState.remove_pending = false ∧ c3OutputState.desired_on = true ∧
     c3OutputState.selected_sink_id = some 7 ∧
     (!c3OutputState.actual_on || !(c3OutputState.applied_sink_id == some 7)) = true ∧
     c3FailSinkOracle 7 =
       Except.error (PyErr.runtimeError
         (pys "Cannot link: missing hub monitor ports or sink input ports.")) ∧
     c3OutputState.apply c3FailSinkOracle = (false, { c3OutputState with pairs := [], actual_on := false, applied_sink_id := none, error := some (pys "Cannot link: missing hub monitor ports or sink input ports.") })) :=
  ⟨⟨rfl, rfl, rfl, rfl, rfl,
    c3_apply_connect_failure.1 c3InputState c3FailOracle
      ⟨pys "stream", pys "stream:5", pys "s"⟩
      (PyErr.runtimeError (pys "No compatible port pairs for stream -> hub."))
      rfl rfl rfl rfl rfl⟩,
   ⟨rfl, rfl, rfl, rfl, rfl,
    c3_apply_connect_failure.2 c3OutputState c3FailSinkOracle 7
      (PyErr.runtimeError (pys "Cannot link: missing hub monitor ports or sink input ports."))
      rfl rfl rfl rfl rfl⟩⟩

/-- Every canonical channel label is a non-empty string. -/
theorem canonical_channels_ne_nil : ∀ ch ∈ canonical_channel_order, ch ≠ ([] : PyStr) := by
  decide

/-- The channel tier of `map_ports_1_to_1` is empty whenever either side has
no channel-tagged port or no channel is shared. -/
theorem tier1_eq_nil_of_no_shared (src dst : List PwPort)
    (h : (∀ p ∈ src, p.channel = []) ∨ (∀ p ∈ dst, p.channel = []) ∨
      (∀ ch : PyStr, ch ≠ [] →
        ¬((∃ p ∈ src, p.channel = ch) ∧ ∃ p ∈ dst, p.channel = ch))) :
    canonical_channel_order.filterMap (fun ch =>
      match alookup (byChLast src) ch, alookup (byChLast dst) ch with
      | some a, some b => some (a.full_name, b.full_name)
      | _, _ => none) = [] := by
  rw [List.filterMap_eq_nil_iff]
  intro ch hch
  have hchne : ch ≠ ([] : PyStr) := canonical_channels_ne_nil ch hch
  rcases h with h | h | h
  · have : byChLast src = [] := (byChLast_eq_nil_iff src).mpr h
    simp [this, alookup]
  · have hd : byChLast dst = [] := (byChLast_eq_nil_iff dst).mpr h
    cases hs : alookup (byChLast src) ch <;> simp [hs, hd, alookup]
  · cases hs : alookup (byChLast src) ch with
    | none => simp [hs]
    | some a =>
      cases hd : alookup (byChLast dst) ch with
      | none => simp [hs, hd]
      | some b =>
        exfalso
        rw [byChLast_lookup src ch hchne] at hs
        rw [byChLast_lookup dst ch hchne] at hd
        have ha : a ∈ src ∧ a.channel = ch := by
          refine ⟨List.mem_reverse.mp (List.mem_of_find?_eq_some hs), ?_⟩
          simpa using List.find?_some hs
        have hb : b ∈ dst ∧ b.channel = ch := by
          refine ⟨List.mem_reverse.mp (List.mem_of_find?_eq_some hd), ?_⟩
          simpa using List.find?_some hd
        exact h ch hchne ⟨⟨a, ha.1, ha.2⟩, ⟨b, hb.1, hb.2⟩⟩

/-- Claim C5: whenever the channel tier yields no pair (either side without a
channel-tagged port, or no channel shared between the two sides),
`map_ports_1_to_1` pairs the two lists positionally, producing exactly
`min(len(src), len(dst))` pairs, i-th source with i-th destination; an empty
list on either side gives an empty result without error. -/
theorem c5_positional_fallback (src dst : List PwPort)
    (h : (∀ p ∈ src, p.channel = []) ∨ (∀ p ∈ dst, p.channel = []) ∨
      (∀ ch : PyStr, ch ≠ [] →
        ¬((∃ p ∈ src, p.channel = ch) ∧ ∃ p ∈ dst, p.channel = ch))) :
    map_ports_1_to_1 src dst =
      (src.zip dst).map (fun ab => (ab.1.full_name, ab.2.full_name)) ∧
    (map_ports_1_to_1 src dst).length = min src.length dst.length := by
  have hmain : map_ports_1_to_1 src dst =
      (src.zip dst).map (fun ab => (ab.1.full_name, ab.2.full_name)) := by
    by_cases hs : src.isEmpty
    · obtain rfl : src = [] := List.isEmpty_iff.mp hs
      simp [map_ports_1_to_1]
    · by_cases hd : dst.isEmpty
      · obtain rfl : dst = [] := List.isEmpty_iff.mp hd
        simp [map_ports_1_to_1]
      · have hfm := tier1_eq_nil_of_no_shared src dst h
        simp [map_ports_1_to_1, hs, hd, hfm]
  refine ⟨hmain, ?_⟩
  rw [hmain]
  simp [List.length_zip]

/-- Claim C5, witness: one untagged source port against two untagged
destination ports pairs positionally into a single pair. -/
theorem c5_positional_fallback_witness :
    (∀ p ∈ [portE], p.channel = ([] : PyStr)) ∧
    (map_ports_1_to_1 [portE] [portF, portG] =
       ([portE].zip [portF, portG]).map (fun ab => (ab.1.full_name, ab.2.full_name)) ∧
     (map_ports_1_to_1 [portE] [portF, portG]).length =
       min ([portE] : List PwPort).length ([portF, portG] : List PwPort).length) :=
  ⟨by decide, c5_positional_fallback [portE] [portF, portG] (Or.inl (by decide))⟩

/-- Claim C4, counterexample.  The claim quantifies over all shared channels:
here the two sides each have a channel-tagged port and share the (non-
canonical) channel `XX`, yet `map_ports_1_to_1` emits no `XX` pair at all — it
falls back to positional pairing and returns two pairs, not the single pair
per shared channel the claim requires. -/
theorem c4_counterexample :
    ([portB, portA].any fun p => !p.channel.isEmpty) = true ∧
    ([portC, portD].any fun p => !p.channel.isEmpty) = true ∧
    (pys "XX" ≠ ([] : PyStr) ∧
      ([portB, portA].any fun p => p.channel == pys "XX") = true ∧
      ([portC, portD].any fun p => p.channel == pys "XX") = true) ∧
    map_ports_1_to_1 [portB, portA] [portC, portD] =
      [(pys "b:ob", pys "c:ic"), (pys "a:oa", pys "d:id")] ∧
    map_ports_1_to_1 [portB, portA] [portC, portD] ≠ [(pys "a:oa", pys "c:ic")] := by
  decide

/-- Claim C4, amended: restricted to channels of the canonical order.  When
each side has at most one port per non-empty channel and at least one
canonical channel occurs on both sides, `map_ports_1_to_1` returns exactly one
pair per shared canonical channel — the source port with that channel paired
with the destination port with that channel — walking the canonical channel
order; channels present on only one side, and shared channels outside the
canonical list, produce no pair. -/
theorem c4_channel_tier_pairs (src dst : List PwPort)
    (hsu : ∀ a ∈ src, ∀ b ∈ src, a.channel = b.channel → a.channel ≠ [] → a = b)
    (hdu : ∀ a ∈ dst, ∀ b ∈ dst, a.channel = b.channel → a.channel ≠ [] → a = b)
    (hne : ∃ ch ∈ canonical_channel_order,
      (src.find? (fun p => p.channel == ch)).isSome ∧
      (dst.find? (fun p => p.channel == ch)).isSome) :
    map_ports_1_to_1 src dst =
      canonical_channel_order.filterMap (fun ch =>
        match src.find? (fun p => p.channel == ch), dst.find? (fun p => p.channel == ch) with
        | some a, some b => some (a.full_name, b.full_name)
        | _, _ => none) := by
  obtain ⟨ch0, hch0, hs0, hd0⟩ := hne
  have hch0ne : ch0 ≠ ([] : PyStr) := canonical_channels_ne_nil ch0 hch0
  obtain ⟨a0, ha0⟩ := Option.isSome_iff_exists.mp hs0
  obtain ⟨b0, hb0⟩ := Option.isSome_iff_exists.mp hd0
  have ha0m := List.mem_of_find?_eq_some ha0
  have hb0m := List.mem_of_find?_eq_some hb0
  have ha0c : a0.channel = ch0 := by simpa using List.find?_some ha0
  have hb0c : b0.channel = ch0 := by simpa using List.find?_some hb0
  -- the two channel dictionaries agree with first-match search
  have hlook : ∀ ch : PyStr, ch ≠ [] →
      alookup (byChLast src) ch = src.find? (fun p => p.channel == ch) := by
    intro ch hch
    rw [byChLast_lookup src ch hch]
    refine find?_reverse_of_unique src _ ?_
    intro a ha b hb hfa hfb
    have hac : a.channel = ch := by simpa using hfa
    have hbc : b.channel = ch := by simpa using hfb
    exact hsu a ha b hb (hac.trans hbc.symm) (by rw [hac]; exact hch)
  have hlookd : ∀ ch : PyStr, ch ≠ [] →
      alookup (byChLast dst) ch = dst.find? (fun p => p.channel == ch) := by
    intro ch hch
    rw [byChLast_lookup dst ch hch]
    refine find?_reverse_of_unique dst _ ?_
    intro a ha b hb hfa hfb
    have hac : a.channel = ch := by simpa using hfa
    have hbc : b.channel = ch := by simpa using hfb
    exact hdu a ha b hb (hac.trans hbc.symm) (by rw [hac]; exact hch)
  -- the tier-1 list equals the specification list
  have htier : canonical_channel_order.filterMap (fun ch =>
      match alookup (byChLast src) ch, alookup (byChLast dst) ch with
      | some a, some b => some (a.full_name, b.full_name)
      | _, _ => none) =
    canonical_channel_order.filterMap (fun ch =>
      match src.find? (fun p => p.channel == ch), dst.find? (fun p => p.channel == ch) with
      | some a, some b => some (a.full_name, b.full_name)
      | _, _ => none) := by
    refine List.filterMap_congr ?_
    intro ch hch
    rw [hlook ch (canonical_channels_ne_nil ch hch), hlookd ch (canonical_channels_ne_nil ch hch)]
  -- the tier-1 list is non-empty
  have htier_ne : canonical_channel_order.filterMap (fun ch =>
      match src.find? (fun p => p.channel == ch), dst.find? (fun p => p.channel == ch) with
      | some a, some b => some (a.full_name, b.full_name)
      | _, _ => none) ≠ [] := by
    intro hnil
    rw [List.filterMap_eq_nil_iff] at hnil
    have := hnil ch0 hch0
    rw [ha0, hb0] at this
    simp at this
  have hsrc_ne : ¬src.isEmpty := by
    cases src with
    | nil => cases ha0m
    | cons x t => simp
  have hdst_ne : ¬dst.isEmpty := by
    cases dst with
    | nil => cases hb0m
    | cons x t => simp
  have hsby : ¬(byChLast src).isEmpty := by
    rw [Bool.not_eq_true, List.isEmpty_eq_false_iff_exists_mem]
    rcases hbc : byChLast src with _ | ⟨kv, t⟩
    · exfalso
      have := (byChLast_eq_nil_iff src).mp hbc a0 ha0m
      rw [ha0c] at this
      exact hch0ne this
    · exact ⟨kv, List.mem_cons_self kv t⟩
  have hdby : ¬(byChLast dst).isEmpty := by
    rw [Bool.not_eq_true, List.isEmpty_eq_false_iff_exists_mem]
    rcases hbc : byChLast dst with _ | ⟨kv, t⟩
    · exfalso
      have := (byChLast_eq_nil_iff dst).mp hbc b0 hb0m
      rw [hb0c] at this
      exact hch0ne this
    · exact ⟨kv, List.mem_cons_self kv t⟩
  rw [map_ports_1_to_1]
  simp only [hsrc_ne, hdst_ne, Bool.false_or, Bool.or_self, if_false, Bool.not_false,
    Bool.not_true, hsby, hdby, Bool.and_self, if_true, htier]
  have : ¬(canonical_channel_order.filterMap (fun ch =>
      match src.find? (fun p => p.channel == ch), dst.find? (fun p => p.channel == ch) with
      | some a, some b => some (a.full_name, b.full_name)
      | _, _ => none)).isEmpty := by
    simpa [List.isEmpty_iff] using htier_ne
  simp [this]

/-- Claim C4, witness: both sides tagged with `FL` and `FR`, source side listed
`FR` first; the result is exactly the `FL` pair then the `FR` pair. -/
theorem c4_channel_tier_pairs_witness :
    ((∀ a ∈ [portH, portB], ∀ b ∈ [portH, portB],
        a.channel = b.channel → a.channel ≠ [] → a = b) ∧
     (∀ a ∈ [portI, portD], ∀ b ∈ [portI, portD],
        a.channel = b.channel → a.channel ≠ [] → a = b) ∧
     (∃ ch ∈ canonical_channel_order,
       (([portH, portB] : List PwPort).find? (fun p => p.channel == ch)).isSome ∧
       (([portI, portD] : List PwPort).find? (fun p => p.channel == ch)).isSome)) ∧
    map_ports_1_to_1 [portH, portB] [portI, portD] =
      canonical_channel_order.filterMap (fun ch =>
        match ([portH, portB] : List PwPort).find? (fun p => p.channel == ch),
              ([portI, portD] : List PwPort).find? (fun p => p.channel == ch) with
        | some a, some b => some (a.full_name, b.full_name)
        | _, _ => none) :=
  ⟨⟨by decide, by decide, ⟨pys "FL", by decide, by decide, by decide⟩⟩,
   c4_channel_tier_pairs [portH, portB] [portI, portD] (by decide) (by decide)
     ⟨pys "FL", by decide, by decide, by decide⟩⟩

/-- Claim C7, counterexample.  The claim makes `ensure()` return without
invoking the control plane whenever a sink node with the hub's name is visible
in the fresh snapshot.  The source instead takes the *first* node with that
name (`_find_node_by_name`) and checks whether it is a sink: in a snapshot
where a non-sink node named `asiphon` precedes the hub sink, a hub sink is
visible yet the control plane is still invoked. -/
theorem c7_counterexample :
    ((dupNameGraph.nodes.map Prod.snd).any fun n =>
      n.name == pys "asiphon" && is_sink_node n) = true ∧
    (ensure_hub_sink (pys "asiphon") dupNameGraph (Except.ok none) hubOnlyGraph).2 = true := by
  decide

/-- Claim C7, amended: with visibility read as "the first node bearing the
hub's name is a sink node", `ensure()` returns successfully without invoking
the control plane when the first snapshot shows the hub; otherwise it invokes
the control plane, re-snapshots, and — when the control-plane step succeeds —
fails with the hub-visibility error exactly when the second snapshot still
does not show the hub. -/
theorem c7_ensure_hub_sink (hubName : PyStr) (g1 g2 : PwGraph)
    (cp : Except PyStr (Option Int)) :
    (hubVisible g1 hubName = true →
      ensure_hub_sink hubName g1 cp g2 = (EnsureResult.ok, false)) ∧
    (hubVisible g1 hubName = false →
      (ensure_hub_sink hubName g1 cp g2).2 = true) ∧
    (∀ h, hubVisible g1 hubName = false → cp = Except.ok h →
      ((ensure_hub_sink hubName g1 cp g2).1 = EnsureResult.hubVisibilityError ↔
        hubVisible g2 hubName = false)) := by
  refine ⟨fun h => ?_, fun h => ?_, fun h hv hcp => ?_⟩
  · simp [ensure_hub_sink, h]
  · cases cp with
    | error e => simp [ensure_hub_sink, h]
    | ok v =>
      simp only [ensure_hub_sink]
      rw [if_neg (by simp [h])]
      by_cases h2 : hubVisible g2 hubName = true <;> simp [h2]
  · subst hcp
    simp only [ensure_hub_sink, hv]
    by_cases h2 : hubVisible g2 hubName <;> simp_all

/-- Claim C7, witness: with the hub sink already visible in the first
snapshot, `ensure` succeeds without touching the control plane. -/
theorem c7_ensure_hub_sink_witness :
    hubVisible hubOnlyGraph (pys "asiphon") = true ∧
    ensure_hub_sink (pys "asiphon") hubOnlyGraph (Except.ok none) dupNameGraph =
      (EnsureResult.ok, false) :=
  ⟨by decide,
   (c7_ensure_hub_sink (pys "asiphon") hubOnlyGraph dupNameGraph (Except.ok none)).1 (by decide)⟩

/-- The dictionary step of `select_ports` keeps the accumulator non-empty. -/
theorem foldl_byChFirstStep_ne_nil (ps : List PwPort) :
    ∀ acc : List (PyStr × PwPort), acc ≠ [] → ps.foldl byChFirstStep acc ≠ [] := by
  induction ps with
  | nil => intro acc h; simpa using h
  | cons pp t ih =>
    intro acc h
    have hstep : byChFirstStep acc pp ≠ [] := by
      unfold byChFirstStep
      split
      · intro hc
        exact h (List.append_eq_nil.mp hc).1
      · exact h
    simpa using ih (byChFirstStep acc pp) hstep

/-- The channel dictionary of `select_ports` is empty iff no selected port is
channel-tagged. -/
theorem byChFirst_eq_nil_iff (ps : List PwPort) :
    byChFirst ps = [] ↔ ∀ p ∈ ps, p.channel = [] := by
  unfold byChFirst
  induction ps with
  | nil => simp
  | cons pp t ih =>
    by_cases h : pp.channel = []
    · simp only [List.foldl_cons, byChFirstStep, h]
      simpa [h] using ih
    · constructor
      · intro hfold
        exfalso
        refine foldl_byChFirstStep_ne_nil t (byChFirstStep [] pp) ?_ ?_
        · unfold byChFirstStep
          have hne : pp.channel.isEmpty = false := by simpa [List.isEmpty_iff] using h
          simp [hne, alookup]
        · simpa using hfold
      · intro hall
        exact absurd (hall pp (List.mem_cons_self pp t)) h

/-- Lookup in the folded channel dictionary of `select_ports`: the starting
accumulator wins, then the first matching port of the scanned suffix. -/
theorem alookup_foldl_byChFirstStep (ps : List PwPort) :
    ∀ (acc : List (PyStr × PwPort)) (ch : PyStr), ch ≠ [] →
      alookup (ps.foldl byChFirstStep acc) ch =
        match alookup acc ch with
        | some p => some p
        | none => ps.find? (fun p => p.channel == ch) := by
  induction ps with
  | nil =>
    intro acc ch _
    cases h : alookup acc ch <;> simp [h]
  | cons pp t ih =>
    intro acc ch hch
    simp only [List.foldl_cons]
    rw [ih (byChFirstStep acc pp) ch hch]
    cases hacc : alookup acc ch with
    | some q =>
      have hstep : alookup (byChFirstStep acc pp) ch = some q := by
        unfold byChFirstStep
        split
        · rw [alookup_append, hacc]
        · exact hacc
      simp [hstep]
    | none =>
      by_cases hpc : pp.channel = ch
      · have hbeq : (pp.channel == ch) = true := beq_iff_eq.mpr hpc
        have hne : pp.channel.isEmpty = false := by
          rw [hpc]; simpa [List.isEmpty_iff] using hch
        have hstep : alookup (byChFirstStep acc pp) ch = some pp := by
          unfold byChFirstStep
          rw [hpc, if_pos (by simp [hacc, List.isEmpty_iff, hch])]
          rw [alookup_append, hacc]
          simp [alookup]
        simp [hstep, List.find?_cons, hbeq]
      · have hbeq : (pp.channel == ch) = false := beq_eq_false_iff_ne.mpr hpc
        have hstep : alookup (byChFirstStep acc pp) ch = none := by
          unfold byChFirstStep
          split
          · rw [alookup_append, hacc]
            simp [alookup, hpc]
          · exact hacc
        simp [hstep, List.find?_cons, hbeq]

/-- Lookup in the channel dictionary of `select_ports` finds the first port
carrying that channel. -/
theorem byChFirst_lookup (ps : List PwPort) (ch : PyStr) (hch : ch ≠ []) :
    alookup (byChFirst ps) ch = ps.find? (fun p => p.channel == ch) := by
  unfold byChFirst
  rw [alookup_foldl_byChFirstStep ps [] ch hch]
  cases ps.find? (fun p => p.channel == ch) <;> simp [alookup]

/-- The selected ports satisfy the selection filter. -/
theorem selected_raw_mem (g : PwGraph) (nid : Int) (dir : PyStr) (p : PwPort)
    (hp : p ∈ selected_raw g nid dir) :
    p.node_id = nid ∧ p.direction = dir ∧ p.full_name ≠ [] := by
  unfold selected_raw at hp
  have h2 := (List.mem_filter.mp hp).2
  simp only [Bool.and_eq_true, beq_iff_eq, Bool.not_eq_true'] at h2
  refine ⟨h2.1.1, h2.1.2, ?_⟩
  intro hfn
  rw [hfn] at h2
  simp at h2

/-- `select_ports` computes exactly the ordering described by the spec. -/
theorem select_ports_eq_spec (g : PwGraph) (nid : Int) (dir : PyStr) :
    select_ports g nid dir = select_ports_spec g nid dir := by
  unfold select_ports select_ports_spec
  by_cases hempty : (selected_raw g nid dir).isEmpty
  · obtain h0 : selected_raw g nid dir = [] := List.isEmpty_iff.mp hempty
    simp [h0, sortById, List.mergeSort_nil]
  · by_cases hby : (byChFirst (selected_raw g nid dir)).isEmpty
    · have hall : ∀ p ∈ selected_raw g nid dir, p.channel = [] :=
        (byChFirst_eq_nil_iff _).mp (List.isEmpty_iff.mp hby)
      have hany : ((selected_raw g nid dir).any fun p => !p.channel.isEmpty) = false := by
        rw [List.any_eq_false]
        intro p hp
        simp [hall p hp]
      simp [hempty, hby, hany]
    · have hanyT : ((selected_raw g nid dir).any fun p => !p.channel.isEmpty) = true := by
        by_contra hcon
        rw [Bool.not_eq_true, List.any_eq_false] at hcon
        have : byChFirst (selected_raw g nid dir) = [] := by
          rw [byChFirst_eq_nil_iff]
          intro p hp
          have := hcon p hp
          simpa [List.isEmpty_iff] using this
        rw [this] at hby
        simp at hby
      have hreps : canonical_channel_order.filterMap
          (fun ch => alookup (byChFirst (selected_raw g nid dir)) ch) =
        canonical_channel_order.filterMap
          (fun ch => (selected_raw g nid dir).find? (fun p => p.channel == ch)) := by
        refine List.filterMap_congr ?_
        intro ch hch
        exact byChFirst_lookup _ ch (canonical_channels_ne_nil ch hch)
      simp [hempty, hby, hanyT, hreps]

/-- Port ids are pairwise distinct among the values of a well-keyed port map. -/
theorem selected_raw_ids_nodup (g : PwGraph) (nid : Int) (dir : PyStr)
    (hk : WellKeyedPorts g) :
    ((selected_raw g nid dir).map PwPort.id).Nodup := by
  have hv : ((g.ports.map Prod.snd).map PwPort.id).Nodup := by
    rw [List.map_map]
    have heq : g.ports.map (PwPort.id ∘ Prod.snd) = g.ports.map Prod.fst := by
      refine List.map_congr_left ?_
      intro kp hkp
      exact hk.2 kp hkp
    rw [heq]
    exact hk.1
  exact List.Nodup.sublist (List.Sublist.map PwPort.id (List.filter_sublist _)) hv

/-- `select_ports` returns a permutation of the selection filter when the port
map is well-keyed. -/
theorem select_ports_perm (g : PwGraph) (nid : Int) (dir : PyStr)
    (hk : WellKeyedPorts g) :
    (select_ports g nid dir).Perm (selected_raw g nid dir) := by
  have hids := selected_raw_ids_nodup g nid dir hk
  have hnps : (selected_raw g nid dir).Nodup := List.Nodup.of_map _ hids
  rw [select_ports_eq_spec]
  unfold select_ports_spec
  by_cases hany : ((selected_raw g nid dir).any fun p => !p.channel.isEmpty) = true
  · simp only [hany, if_true]
    set ps := selected_raw g nid dir with hps
    set reps := canonical_channel_order.filterMap
      (fun ch => ps.find? (fun p => p.channel == ch)) with hreps
    have hrep_mem : ∀ x ∈ reps, x ∈ ps := by
      intro x hx
      rw [hreps, List.mem_filterMap] at hx
      obtain ⟨ch, _, hfind⟩ := hx
      exact List.mem_of_find?_eq_some hfind
    have hrep_nodup : reps.Nodup := by
      rw [hreps]
      refine List.Nodup.filterMap ?_ (by decide)
      intro ch ch' x hx hx'
      have h1 : x.channel = ch := by
        simpa using List.find?_some (Option.mem_def.mp hx)
      have h2 : x.channel = ch' := by
        simpa using List.find?_some (Option.mem_def.mp hx')
      rw [← h1, ← h2]
    have hsort_nodup : (sortById ps).Nodup :=
      ((List.mergeSort_perm ps _).symm).nodup hnps
    refine (List.perm_ext_iff_of_nodup ?_ hnps).mpr ?_
    · rw [List.nodup_append]
      refine ⟨hrep_nodup, List.Nodup.filter _ hsort_nodup, ?_⟩
      intro x hx hx'
      have hxid : x.id ∈ reps.map PwPort.id := List.mem_map_of_mem PwPort.id hx
      have hcf := (List.mem_filter.mp hx').2
      rw [Bool.not_eq_true'] at hcf
      simp only [List.contains, List.elem_eq_mem, decide_eq_false_iff_not] at hcf
      exact hcf hxid
    · intro x
      constructor
      · intro hx
        rcases List.mem_append.mp hx with hx | hx
        · exact hrep_mem x hx
        · exact (List.mergeSort_perm ps _).mem_iff.mp (List.mem_filter.mp hx).1
      · intro hx
        by_cases hxid : x.id ∈ reps.map PwPort.id
        · rw [List.mem_map] at hxid
          obtain ⟨r, hr, hrid⟩ := hxid
          have hrps : r ∈ ps := hrep_mem r hr
          have : x = r := List.inj_on_of_nodup_map hids hx hrps hrid.symm
          rw [this]
          exact List.mem_append.mpr (Or.inl hr)
        · refine List.mem_append.mpr (Or.inr ?_)
          rw [List.mem_filter]
          refine ⟨(List.mergeSort_perm ps _).mem_iff.mpr hx, ?_⟩
          simp only [Bool.not_eq_true']
          simp only [List.contains, List.elem_eq_mem, decide_eq_false_iff_not]
          exact hxid
  · rw [if_neg hany]
    exact List.mergeSort_perm _ _

/-- Claim C6: for every well-keyed graph, node id and direction,
`select_ports` returns exactly the graph's ports matching the node id and
direction with a non-empty qualified name (a permutation of that filter, so
never a port of another direction or with an empty qualified name), and the
ordering is the deterministic function described by the spec: if any selected
port has a known channel, first one port per distinct channel (first
occurrence wins) in canonical channel order, then the remaining selected
ports sorted by ascending id; otherwise all selected ports sorted by
ascending id. -/
theorem c6_select_ports_characterisation (g : PwGraph) (nid : Int) (dir : PyStr)
    (hk : WellKeyedPorts g) :
    select_ports g nid dir = select_ports_spec g nid dir ∧
    (select_ports g nid dir).Perm (selected_raw g nid dir) ∧
    ∀ p ∈ select_ports g nid dir,
      p.node_id = nid ∧ p.direction = dir ∧ p.full_name ≠ [] :=
  ⟨select_ports_eq_spec g nid dir, select_ports_perm g nid dir hk,
   fun p hp => selected_raw_mem g nid dir p
     ((select_ports_perm g nid dir hk).mem_iff.mp hp)⟩

/-- Claim C6, witness: a well-keyed three-port graph. -/
theorem c6_select_ports_characterisation_witness :
    WellKeyedPorts c6Graph ∧
    (select_ports c6Graph 10 (pys "out") = select_ports_spec c6Graph 10 (pys "out") ∧
     (select_ports c6Graph 10 (pys "out")).Perm (selected_raw c6Graph 10 (pys "out")) ∧
     ∀ p ∈ select_ports c6Graph 10 (pys "out"),
       p.node_id = 10 ∧ p.direction = pys "out" ∧ p.full_name ≠ []) :=
  ⟨by decide, c6_select_ports_characterisation c6Graph 10 (pys "out") (by decide)⟩

/-- Lower-casing is idempotent per character. -/
theorem lowChar_lowChar (c : Nat) : lowChar (lowChar c) = lowChar c := by
  unfold lowChar
  split_ifs <;> omega

/-- A lower-cased character is never an ASCII capital. -/
theorem lowChar_not_upper (c : Nat) : ¬(65 ≤ lowChar c ∧ lowChar c ≤ 90) := by
  unfold lowChar
  split_ifs <;> omega

/-- Characters that are not ASCII capitals are fixed by lower-casing. -/
theorem lowChar_eq_self (c : Nat) (h : ¬(65 ≤ c ∧ c ≤ 90)) : lowChar c = c := by
  unfold lowChar
  exact if_neg h

/-- Round trip: upper-casing then lower-casing fixes non-capital characters. -/
theorem lowChar_upChar (c : Nat) (h : ¬(65 ≤ c ∧ c ≤ 90)) : lowChar (upChar c) = c := by
  unfold lowChar upChar
  split_ifs <;> omega

/-- Lower-casing does not change whether a character is whitespace. -/
theorem isSpaceChar_lowChar (c : Nat) : isSpaceChar (lowChar c) = isSpaceChar c := by
  unfold lowChar
  split
  · rename_i h
    have h1 : isSpaceChar (c + 32) = false := by
      unfold isSpaceChar
      simp only [Bool.or_eq_false_iff, beq_eq_false_iff_ne]
      omega
    have h2 : isSpaceChar c = false := by
      unfold isSpaceChar
      simp only [Bool.or_eq_false_iff, beq_eq_false_iff_ne]
      omega
    rw [h1, h2]
  · rfl

/-- Upper-casing does not change whether a character is whitespace. -/
theorem isSpaceChar_upChar (c : Nat) : isSpaceChar (upChar c) = isSpaceChar c := by
  unfold upChar
  split
  · rename_i h
    have h1 : isSpaceChar (c - 32) = false := by
      unfold isSpaceChar
      simp only [Bool.or_eq_false_iff, beq_eq_false_iff_ne]
      omega
    have h2 : isSpaceChar c = false := by
      unfold isSpaceChar
      simp only [Bool.or_eq_false_iff, beq_eq_false_iff_ne]
      omega
    rw [h1, h2]
  · rfl

/-- Lower-casing a string twice equals lower-casing it once. -/
theorem pyLower_pyLower (s : PyStr) : pyLower (pyLower s) = pyLower s := by
  unfold pyLower
  rw [List.map_map]
  refine List.map_congr_left ?_
  intro c _
  exact lowChar_lowChar c

/-- No character of a lower-cased string is an ASCII capital. -/
theorem pyLower_noupper (s : PyStr) : ∀ c ∈ pyLower s, ¬(65 ≤ c ∧ c ≤ 90) := by
  intro c hc
  rw [pyLower, List.mem_map] at hc
  obtain ⟨d, _, rfl⟩ := hc
  exact lowChar_not_upper d

/-- Lower-casing undoes upper-casing on capital-free strings. -/
theorem pyLower_pyUpper (s : PyStr) (h : ∀ c ∈ s, ¬(65 ≤ c ∧ c ≤ 90)) :
    pyLower (pyUpper s) = s := by
  unfold pyLower pyUpper
  rw [List.map_map]
  have : s.map (lowChar ∘ upChar) = s.map id := by
    refine List.map_congr_left ?_
    intro c hc
    exact lowChar_upChar c (h c hc)
  rw [this, List.map_id]

/-- Dropping a satisfied prefix twice equals dropping it once. -/
theorem dropWhile_dropWhile {α : Type} (p : α → Bool) (l : List α) :
    (l.dropWhile p).dropWhile p = l.dropWhile p := by
  induction l with
  | nil => rfl
  | cons c t ih =>
    by_cases h : p c
    · simp [List.dropWhile_cons, h, ih]
    · simp [List.dropWhile_cons, h]

/-- The head surviving a `dropWhile` does not satisfy the predicate. -/
theorem dropWhile_head_false {α : Type} (p : α → Bool) (l : List α) (h : α)
    (hh : (l.dropWhile p).head? = some h) : p h = false := by
  induction l with
  | nil => simp at hh
  | cons c t ih =>
    by_cases hc : p c
    · rw [List.dropWhile_cons, if_pos hc] at hh
      exact ih hh
    · rw [List.dropWhile_cons, if_neg hc] at hh
      simp at hh
      rw [← hh]
      simpa using hc

/-- Stripping a string twice equals stripping it once. -/
theorem pyStrip_pyStrip (l : PyStr) : pyStrip (pyStrip l) = pyStrip l := by
  unfold pyStrip
  set A := l.dropWhile isSpaceChar with hA
  set C := A.reverse.dropWhile isSpaceChar with hC
  have hpref : C.reverse <+: A := by
    have hsuf : C <:+ A.reverse := by
      rw [hC]; exact List.dropWhile_suffix isSpaceChar
    have := List.reverse_prefix.mpr hsuf
    simpa using this
  have hstep1 : C.reverse.dropWhile isSpaceChar = C.reverse := by
    cases hcr : C.reverse with
    | nil => rfl
    | cons h t =>
      have hhead : A.head? = some h := by
        obtain ⟨u, hu⟩ := hpref
        rw [hcr] at hu
        rw [← hu]
        rfl
      have hfalse : isSpaceChar h = false :=
        dropWhile_head_false isSpaceChar l h hhead
      rw [List.dropWhile_cons, if_neg (by simp [hfalse])]
  rw [hstep1, List.reverse_reverse, hC, dropWhile_dropWhile]

/-- Stripping commutes with character maps that preserve whitespace. -/
theorem pyStrip_map (f : Nat → Nat) (hf : ∀ c, isSpaceChar (f c) = isSpaceChar c)
    (l : PyStr) : pyStrip (l.map f) = (pyStrip l).map f := by
  have hcomp : isSpaceChar ∘ f = isSpaceChar := funext hf
  unfold pyStrip
  rw [List.dropWhile_map, hcomp, ← List.map_reverse, List.dropWhile_map, hcomp,
    ← List.map_reverse]

/-- The fueled digit computation agrees with `Nat.digits` base 10. -/
theorem natDigitsAux_eq (fuel : Nat) : ∀ n : Nat, n ≤ fuel →
    natDigitsAux fuel n = Nat.digits 10 n := by
  induction fuel with
  | zero =>
    intro n hn
    interval_cases n
    simp [natDigitsAux]
  | succ fuel ih =>
    intro n hn
    by_cases h0 : n = 0
    · subst h0; simp [natDigitsAux]
    · rw [natDigitsAux, if_neg h0]
      rw [Nat.digits_def' (by norm_num : (1 : Nat) < 10) (Nat.pos_of_ne_zero h0)]
      congr 1
      refine ih (n / 10) ?_
      have := Nat.div_lt_self (Nat.pos_of_ne_zero h0) (by norm_num : (1 : Nat) < 10)
      omega

/-- The decimal rendering of `n` lists the base-10 digits of `n`. -/
theorem natRepr_eq (n : Nat) (h : n ≠ 0) :
    natRepr n = (Nat.digits 10 n).reverse.map (fun d => d + 48) := by
  rw [natRepr, if_neg h, natDigitsLE, natDigitsAux_eq n n le_rfl]

/-- Every character of a decimal rendering is an ASCII digit. -/
theorem natRepr_digits (n : Nat) : ∀ c ∈ natRepr n, 48 ≤ c ∧ c ≤ 57 := by
  intro c hc
  by_cases h : n = 0
  · subst h
    rw [natRepr] at hc
    simp at hc
    omega
  · rw [natRepr_eq n h, List.mem_map] at hc
    obtain ⟨d, hd, rfl⟩ := hc
    rw [List.mem_reverse] at hd
    have := Nat.digits_lt_base (by norm_num : (1 : Nat) < 10) hd
    omega

/-- A decimal rendering is never the empty string. -/
theorem natRepr_ne_nil (n : Nat) : natRepr n ≠ [] := by
  by_cases h : n = 0
  · subst h; rw [natRepr]; simp
  · rw [natRepr_eq n h]
    simp [Nat.digits_ne_nil_iff_ne_zero, h]

/-- Horner evaluation of a rendered digit list. -/
theorem foldl_digits (ds : List Nat) : ∀ a : Nat,
    List.foldl (fun acc c => acc * 10 + (c - 48)) a (ds.reverse.map (fun d => d + 48)) =
      a * 10 ^ ds.length + Nat.ofDigits 10 ds := by
  induction ds with
  | nil => intro a; simp
  | cons d t ih =>
    intro a
    rw [List.reverse_cons, List.map_append, List.foldl_append, ih a]
    simp only [List.map_cons, List.map_nil, List.foldl_cons, List.foldl_nil,
      Nat.ofDigits_cons, List.length_cons]
    have hsub : d + 48 - 48 = d := by omega
    rw [hsub, pow_succ]
    ring

/-- Parsing a decimal rendering returns the rendered number. -/
theorem digitsToNat_natRepr (n : Nat) : digitsToNat (natRepr n) = n := by
  by_cases h : n = 0
  · subst h; rfl
  · rw [natRepr_eq n h, digitsToNat, foldl_digits]
    simp [Nat.ofDigits_digits]

/-- A lookup with no matching key misses. -/
theorem alookup_eq_none_of_ne {β : Type} (m : List (PyStr × β)) (k : PyStr)
    (h : ∀ kv ∈ m, kv.1 ≠ k) : alookup m k = none := by
  induction m with
  | nil => rfl
  | cons kv t ih =>
    rw [alookup]
    rw [if_neg (h kv (List.mem_cons_self kv t))]
    exact ih fun kv' hkv' => h kv' (List.mem_cons_of_mem kv hkv')

/-- A successful lookup returns one of the stored values. -/
theorem alookup_mem_values {β : Type} (m : List (PyStr × β)) (k : PyStr) (v : β)
    (h : alookup m k = some v) : v ∈ m.map Prod.snd := by
  induction m with
  | nil => simp [alookup] at h
  | cons kv t ih =>
    rw [alookup] at h
    by_cases hk : kv.1 = k
    · rw [if_pos hk] at h
      simp only [Option.some.injEq] at h
      subst h
      simp
    · rw [if_neg hk] at h
      simp [ih h]

/-- A list none of whose elements satisfies the predicate survives `dropWhile`. -/
theorem dropWhile_eq_self_of_all {α : Type} (p : α → Bool) (l : List α)
    (h : ∀ c ∈ l, p c = false) : l.dropWhile p = l := by
  cases l with
  | nil => rfl
  | cons c t =>
    rw [List.dropWhile_cons, if_neg (by simp [h c (List.mem_cons_self c t)])]

/-- A whitespace-free string survives stripping. -/
theorem strip_of_no_space (l : PyStr) (h : ∀ c ∈ l, isSpaceChar c = false) :
    pyStrip l = l := by
  unfold pyStrip
  rw [dropWhile_eq_self_of_all isSpaceChar l h,
    dropWhile_eq_self_of_all isSpaceChar l.reverse
      (fun c hc => h c (List.mem_reverse.mp hc)),
    List.reverse_reverse]

/-- `normalize_channel` fixes every string of the form `AUX<decimal>`. -/
theorem normalize_channel_aux_fixed (m : Nat) :
    normalize_channel (pys "AUX" ++ natRepr m) = pys "AUX" ++ natRepr m := by
  have hdig := natRepr_digits m
  have hnospace : ∀ c ∈ pys "AUX" ++ natRepr m, isSpaceChar c = false := by
    intro c hc
    rw [List.mem_append] at hc
    rcases hc with hc | hc
    · rcases (by simpa [pys] using hc : c = 65 ∨ c = 85 ∨ c = 88) with rfl | rfl | rfl <;> rfl
    · have := hdig c hc
      unfold isSpaceChar
      simp only [Bool.or_eq_false_iff, beq_eq_false_iff_ne]
      omega
  have hstrip : pyStrip (pys "AUX" ++ natRepr m) = pys "AUX" ++ natRepr m :=
    strip_of_no_space _ hnospace
  have hlower : pyLower (pys "AUX" ++ natRepr m) = pys "aux" ++ natRepr m := by
    unfold pyLower
    rw [List.map_append]
    congr 1
    have hfix : (natRepr m).map lowChar = (natRepr m).map id := by
      refine List.map_congr_left ?_
      intro c hc
      have := hdig c hc
      exact lowChar_eq_self c (by omega)
    rw [hfix, List.map_id]
  have hne : pys "aux" ++ natRepr m ≠ [] := by simp [pys]
  have hlk : alookup channelMapping (pys "aux" ++ natRepr m) = none := by
    apply alookup_eq_none_of_ne
    intro kv hkv he
    have hh : ∀ kv ∈ channelMapping, kv.1.head? ≠ some 97 := by decide
    exact hh kv hkv (by rw [he]; rfl)
  have htake : (pys "aux" ++ natRepr m).take 3 = pys "aux" := rfl
  have hdrop : (pys "aux" ++ natRepr m).drop 3 = natRepr m := rfl
  have hall : (natRepr m).all isDigitChar = true := by
    rw [List.all_eq_true]
    intro c hc
    have := hdig c hc
    simp only [isDigitChar, Bool.and_eq_true, decide_eq_true_eq]
    omega
  simp only [normalize_channel, hstrip, hlower]
  rw [if_neg hne, hlk]
  rw [if_pos ⟨htake, by rw [hdrop]; exact natRepr_ne_nil m, by rw [hdrop]; exact hall⟩]
  rw [hdrop, digitsToNat_natRepr]

/-- `normalize_channel` fixes the upper-casing of any already-normalized
residual string: stripped, capital-free, missing from the synonym table and
failing the `aux` digit test. -/
theorem normalize_channel_upper_fixed (t : PyStr) (h0 : t ≠ [])
    (hnoup : ∀ c ∈ t, ¬(65 ≤ c ∧ c ≤ 90)) (hstrip : pyStrip t = t)
    (hlk : alookup channelMapping t = none)
    (hg : ¬(t.take 3 = pys "aux" ∧ t.drop 3 ≠ [] ∧ (t.drop 3).all isDigitChar = true)) :
    normalize_channel (pyUpper t) = pyUpper t := by
  have hstripU : pyStrip (pyUpper t) = pyUpper t := by
    unfold pyUpper
    rw [pyStrip_map upChar isSpaceChar_upChar, hstrip]
  have hlowU : pyLower (pyStrip (pyUpper t)) = t := by
    rw [hstripU]
    exact pyLower_pyUpper t hnoup
  simp only [normalize_channel, hlowU]
  rw [if_neg h0, hlk, if_neg hg]

/-- Claim C9: `normalize` is idempotent on every input string — recognized
speaker-position synonyms, `auxN` labels and unknown labels alike. -/
theorem c9_normalize_idempotent (v : PyStr) :
    normalize_channel (normalize_channel v) = normalize_channel v := by
  have hsstrip : pyStrip (pyLower (pyStrip v)) = pyLower (pyStrip v) := by
    rw [show pyLower (pyStrip v) = (pyStrip v).map lowChar from rfl,
      pyStrip_map lowChar isSpaceChar_lowChar, pyStrip_pyStrip]
  have hnoup := pyLower_noupper (pyStrip v)
  by_cases h0 : pyLower (pyStrip v) = []
  · have hv : normalize_channel v = [] := by
      simp [normalize_channel, h0]
    rw [hv]
    rfl
  · cases hlk : alookup channelMapping (pyLower (pyStrip v)) with
    | some r =>
      have hv : normalize_channel v = r := by
        simp only [normalize_channel]
        rw [if_neg h0, hlk]
      rw [hv]
      have hrv : r ∈ channelMapping.map Prod.snd := alookup_mem_values _ _ _ hlk
      have hfix : ∀ r ∈ channelMapping.map Prod.snd, normalize_channel r = r := by decide
      exact hfix r hrv
    | none =>
      by_cases hg : (pyLower (pyStrip v)).take 3 = pys "aux" ∧
          (pyLower (pyStrip v)).drop 3 ≠ [] ∧
          ((pyLower (pyStrip v)).drop 3).all isDigitChar = true
      · have hv : normalize_channel v =
            pys "AUX" ++ natRepr (digitsToNat ((pyLower (pyStrip v)).drop 3)) := by
          simp only [normalize_channel]
          rw [if_neg h0, hlk, if_pos hg]
        rw [hv]
        exact normalize_channel_aux_fixed _
      · have hv : normalize_channel v = pyUpper (pyLower (pyStrip v)) := by
          simp only [normalize_channel]
          rw [if_neg h0, hlk, if_neg hg]
        rw [hv]
        exact normalize_channel_upper_fixed _ h0 hnoup hsstrip hlk hg

end ASyphon